import Mathlib

/-!
# Dune MPI collective communication: a shallow embedding

Embedding of `dune/common/parallel/mpicollectivecommunication.hh`:
the operator registry `Generic_MPI_Op` and the class `Communication<MPI_Comm>`,
and of the class templates of `dune/common/tuples/firstindex.hh` and
`dune/common/tuples/integralconstant.hh`.

The message-passing substrate (the MPI library) is external to the code.  It is
represented by a record of responses (`Substrate`), one field per primitive the
code calls, and every call the code makes is appended to a log (`World.calls`),
so that statements about "which primitive is invoked, with which arguments, how
often" are statements about that log.
-/

namespace Dune

/-! ## Substrate handles -/

/-- Group handle of the substrate (`MPI_Comm`); the number only identifies the handle. -/
structure MPI_Comm where
  handle : Nat
deriving DecidableEq, Repr

/-- The null group `MPI_COMM_NULL`. -/
def MPI_COMM_NULL : MPI_Comm := ⟨0⟩

/-- The world group `MPI_COMM_WORLD`, the default argument of the constructor. -/
def MPI_COMM_WORLD : MPI_Comm := ⟨1⟩

/-- Reduction operator handle of the substrate (`MPI_Op`): the four native
handles the code names, and handles produced by `MPI_Op_create`. -/
inductive MPI_Op where
  | MPI_SUM
  | MPI_PROD
  | MPI_MIN
  | MPI_MAX
  | created (id : Nat)
deriving DecidableEq, Repr

/-- Identity of a C++ type (a template argument). -/
abbrev TypeId := String

/-- The `BinaryFunction` template argument: the four functor templates that
`ComposeMPIOp` specialises on, applied to their argument type `S`, or any other
functor class. -/
inductive BinaryFunction where
  | plus (S : TypeId)
  | multiplies (S : TypeId)
  | Min (S : TypeId)
  | Max (S : TypeId)
  | other (name : String)
deriving DecidableEq, Repr

/-- Status object filled by probe and receive primitives (`MPI_Status`). -/
structure MPI_Status where
  MPI_SOURCE : Int
  MPI_TAG : Int
  MPI_ERROR : Int
  count : Int
deriving DecidableEq, Repr

/-- Message handle produced by `MPI_Mprobe` (`MPI_Message`). -/
structure MPI_Message where
  handle : Nat
deriving DecidableEq, Repr

/-- Request handle of a pending non-blocking operation (`MPI_Request`). -/
structure MPI_Request where
  handle : Nat
deriving DecidableEq, Repr

/-- One call of a substrate primitive, with the scalar arguments the code passes. -/
inductive Call where
  | Initialized
  | Comm_rank (comm : MPI_Comm)
  | Comm_size (comm : MPI_Comm)
  | Op_create (type : TypeId) (func : BinaryFunction) (commute : Bool)
  | Send (count : Int) (type : TypeId) (dest tag : Int) (comm : MPI_Comm)
  | Recv (count : Int) (type : TypeId) (source tag : Int) (comm : MPI_Comm)
  | Mprobe (source tag : Int) (comm : MPI_Comm)
  | Get_count (type : TypeId)
  | Mrecv (count : Int) (type : TypeId)
  | Barrier (comm : MPI_Comm)
  | Bcast (count : Int) (type : TypeId) (root : Int) (comm : MPI_Comm)
  | Gather (sendcount recvcount : Int) (type : TypeId) (root : Int) (comm : MPI_Comm)
  | Igather (sendcount recvcount : Int) (root : Int) (comm : MPI_Comm)
  | Gatherv (sendcount : Int) (recvcounts displs : List Int) (type : TypeId) (root : Int)
      (comm : MPI_Comm)
  | Scatter (sendcount recvcount : Int) (type : TypeId) (root : Int) (comm : MPI_Comm)
  | Iscatter (sendcount recvcount : Int) (root : Int) (comm : MPI_Comm)
  | Scatterv (sendcounts displs : List Int) (recvcount : Int) (type : TypeId) (root : Int)
      (comm : MPI_Comm)
  | Allgather (sendcount recvcount : Int) (type : TypeId) (comm : MPI_Comm)
  | Iallgather (sendcount recvcount : Int) (comm : MPI_Comm)
  | Allgatherv (sendcount : Int) (recvcounts displs : List Int) (type : TypeId)
      (comm : MPI_Comm)
  | Allreduce (inPlace : Bool) (count : Int) (type : TypeId) (op : MPI_Op) (comm : MPI_Comm)
deriving DecidableEq, Repr

/-- Responses of the substrate, one field per primitive.  A primitive that
returns a status code returns it as the first component; a primitive that
writes a buffer or an out-parameter returns what it wrote.  `T` is the element
type of the buffers.  The send buffer of `MPI_Allreduce` is `none` when the
code passes `MPI_IN_PLACE`. -/
structure Substrate (T : Type) where
  MPI_Initialized : Int
  MPI_Comm_rank : MPI_Comm → Int
  MPI_Comm_size : MPI_Comm → Int
  MPI_Op_create : Nat → TypeId → BinaryFunction → Bool → Int × MPI_Op
  MPI_Send : List T → Int → TypeId → Int → Int → MPI_Comm → Int
  MPI_Recv : List T → Int → TypeId → Int → Int → MPI_Comm → Int × List T × MPI_Status
  MPI_Mprobe : Int → Int → MPI_Comm → Int × MPI_Message × MPI_Status
  MPI_Get_count : MPI_Status → TypeId → Int × Int
  MPI_Mrecv : List T → Int → TypeId → MPI_Message → Int × List T × MPI_Status
  MPI_Barrier : MPI_Comm → Int
  MPI_Bcast : List T → Int → TypeId → Int → MPI_Comm → Int × List T
  MPI_Gather : List T → Int → List T → Int → TypeId → Int → MPI_Comm → Int × List T
  MPI_Igather : List T → Int → List T → Int → Int → MPI_Comm → Int × MPI_Request
  MPI_Gatherv : List T → Int → List T → List Int → List Int → TypeId → Int → MPI_Comm →
    Int × List T
  MPI_Scatter : List T → Int → List T → Int → TypeId → Int → MPI_Comm → Int × List T
  MPI_Iscatter : List T → Int → List T → Int → Int → MPI_Comm → Int × MPI_Request
  MPI_Scatterv : List T → List Int → List Int → List T → Int → TypeId → Int → MPI_Comm →
    Int × List T
  MPI_Allgather : List T → Int → List T → Int → TypeId → MPI_Comm → Int × List T
  MPI_Iallgather : List T → Int → List T → Int → MPI_Comm → Int × MPI_Request
  MPI_Allgatherv : List T → Int → List T → List Int → List Int → TypeId → MPI_Comm →
    Int × List T
  MPI_Allreduce : Option (List T) → List T → Int → TypeId → MPI_Op → MPI_Comm → Int × List T

/-- Process-wide state the code reads and writes: the log of substrate calls
made so far, and the static member `Generic_MPI_Op<Type,BinaryFunction>::op`
of every instantiation of the primary template (`none` is the null
`shared_ptr` it is initialised with). -/
structure World where
  calls : List Call
  op : TypeId → BinaryFunction → Option MPI_Op

/-- The state at process start: nothing called, every `op` null. -/
def World.start : World := ⟨[], fun _ _ => none⟩

/-- Append one substrate call to the log. -/
def World.record (w : World) (c : Call) : World := ⟨w.calls ++ [c], w.op⟩

/-- Ways a call of the code ends without returning: the exception thrown by
`DUNE_THROW(ParallelError, ...)`, the exception a new-expression throws for a
negative array length, and a failed `assert`. -/
inductive Exception where
  | ParallelError (msg : String)
  | bad_array_new_length
  | assertion (expr : String)
deriving DecidableEq, Repr

/-! ## `Communication<MPI_Comm>`: construction, rank, size -/

/-- Data members of `Communication<MPI_Comm>`. -/
structure Communication where
  communicator : MPI_Comm
  me : Int
  procs : Int
deriving DecidableEq, Repr

/-- Constructor `Communication(const MPI_Comm& c = MPI_COMM_WORLD)`. -/
def Communication.construct {T : Type} (sub : Substrate T) (c : MPI_Comm) (w : World) :
    Except Exception Communication × World :=
  if c ≠ MPI_COMM_NULL then
    let initialized := sub.MPI_Initialized
    let w1 := w.record Call.Initialized
    if initialized = 0 then
      (Except.error (Exception.ParallelError
        "You must call MPIHelper::instance(argc,argv) in your main() function before using the MPI Communication!"),
       w1)
    else
      let me := sub.MPI_Comm_rank c
      let w2 := w1.record (Call.Comm_rank c)
      let procs := sub.MPI_Comm_size c
      let w3 := w2.record (Call.Comm_size c)
      (Except.ok ⟨c, me, procs⟩, w3)
  else
    (Except.ok ⟨c, -1, 0⟩, w)

/-- Member function `rank()`. -/
def Communication.rank (self : Communication) : Int := self.me

/-- Member function `size()`. -/
def Communication.size (self : Communication) : Int := self.procs

/-- Whether a construction ended by throwing `ParallelError`. -/
def failsWithParallelError {α : Type} (r : Except Exception α) : Bool :=
  match r with
  | Except.error (Exception.ParallelError _) => true
  | _ => false

/-! ## The operator registry `Generic_MPI_Op` -/

/-- The partial specialisations generated by `ComposeMPIOp(func,op)`:
`Generic_MPI_Op<T, func<S>, std::enable_if_t<MPITraits<S>::is_intrinsic> >`
for `(std::plus, MPI_SUM)`, `(std::multiplies, MPI_PROD)`, `(Min, MPI_MIN)`,
`(Max, MPI_MAX)`.  The result is the handle of the specialisation selected for
`Generic_MPI_Op<T, BinaryFunction>`, or `none` when the primary template is
selected.  `is_intrinsic` is `MPITraits<S>::is_intrinsic`, declared in
`mpitraits.hh`; the first template argument `T` plays no part in the choice. -/
def Generic_MPI_Op.specialization (is_intrinsic : TypeId → Bool) (_T : TypeId)
    (F : BinaryFunction) : Option MPI_Op :=
  match F with
  | BinaryFunction.plus S => if is_intrinsic S then some MPI_Op.MPI_SUM else none
  | BinaryFunction.multiplies S => if is_intrinsic S then some MPI_Op.MPI_PROD else none
  | BinaryFunction.Min S => if is_intrinsic S then some MPI_Op.MPI_MIN else none
  | BinaryFunction.Max S => if is_intrinsic S then some MPI_Op.MPI_MAX else none
  | BinaryFunction.other _ => none

/-- The body of `get()` in the primary template: `if (!op) { op = new MPI_Op;
MPI_Op_create(&operation, true, op.get()); } return *op;`.  The substrate is
told how many calls precede this one, so that it may hand out a different
handle at every registration. -/
def Generic_MPI_Op.getPrimary {T : Type} (sub : Substrate T) (Ty : TypeId)
    (F : BinaryFunction) (w : World) : MPI_Op × World :=
  match w.op Ty F with
  | none =>
    let created := sub.MPI_Op_create w.calls.length Ty F true
    (created.2,
     ⟨w.calls ++ [Call.Op_create Ty F true],
      fun t f => if t = Ty ∧ f = F then some created.2 else w.op t f⟩)
  | some h => (h, w)

/-- The call `Generic_MPI_Op<Type, BinaryFunction>::get()`: the `get()` of the selected
specialisation (`return op;`) or of the primary template. -/
def Generic_MPI_Op.get {T : Type} (sub : Substrate T) (is_intrinsic : TypeId → Bool)
    (Ty : TypeId) (F : BinaryFunction) (w : World) : MPI_Op × World :=
  match Generic_MPI_Op.specialization is_intrinsic Ty F with
  | some op => (op, w)
  | none => Generic_MPI_Op.getPrimary sub Ty F w

/-- The loop of `operation`, at loop counter `i`; the pointers `in` and `inout`
have been advanced `i` times, so `*in` and `*inout` are the elements at index
`i` of the two buffers.  Reading or writing past the end of a buffer has no
defined result (`none`). -/
def Generic_MPI_Op.operationLoop {T : Type} (func : T → T → T) (len : Int) (i : Nat)
    (inB inoutB : List T) : Option (List T × List T) :=
  if _h : (i : Int) < len then
    match inB[i]?, inoutB[i]? with
    | some a, some b =>
      let temp := func a b
      Generic_MPI_Op.operationLoop func len (i + 1) inB (inoutB.set i temp)
    | _, _ => none
  else
    some (inB, inoutB)
termination_by (len - i).toNat
decreasing_by omega

/-- The reduction callback `operation(Type *in, Type *inout, int *len, MPI_Datatype*)`
registered by the primary template; `func` is the default-constructed
`BinaryFunction`.  The result is the pair of buffers after the call. -/
def Generic_MPI_Op.operation {T : Type} (func : T → T → T) (inB inoutB : List T)
    (len : Int) : Option (List T × List T) :=
  Generic_MPI_Op.operationLoop func len 0 inB inoutB

/-! ## The datatype adapter and the future

`getMPIData` and `MPIFuture` are declared in headers the operations only use
(`mpidata.hh`, `mpifuture.hh`).  A value handed to an operation is the list of
its elements; a scalar is a list of one element. -/

/-- Modelled from the spec: the Datatype Adapter's `size()`, the element count
of the adapted value ("count = current element count"). -/
def MPIData.size {T : Type} (data : List T) : Int := data.length

/-- Modelled from the spec: the Datatype Adapter's `resize(newCount)` for a
resizable container, for a count that is not negative: the container is cut
or filled with value-initialised elements (`zero`) to `newCount` elements. -/
def MPIData.resize {T : Type} (zero : T) (data : List T) (newCount : Int) : List T :=
  data.take newCount.toNat ++ List.replicate (newCount.toNat - data.length) zero

/-- Modelled from the spec: the Future's attributes: the receive buffer, the
separate send buffer, and the pending request handle. -/
structure MPIFuture (T : Type) where
  data_ : List T
  send_data_ : List T
  req_ : MPI_Request

/-- Conversion of a `bool` to `int`. -/
def boolToInt (b : Bool) : Int := if b then 1 else 0

/-! ## `Communication<MPI_Comm>`: point-to-point operations -/

/-- `int send(const T& data, int dest_rank, int tag) const`. -/
def Communication.send {T : Type} (sub : Substrate T) (self : Communication) (Ty : TypeId)
    (data : List T) (dest_rank tag : Int) (w : World) : Int × World :=
  (sub.MPI_Send data (MPIData.size data) Ty dest_rank tag self.communicator,
   w.record (Call.Send (MPIData.size data) Ty dest_rank tag self.communicator))

/-- `T recv(T&& data, int source_rank, int tag, MPI_Status* status = MPI_STATUS_IGNORE) const`.
The argument `status` is `none` for `MPI_STATUS_IGNORE`, else the caller's
status object.  The result is the returned data, the caller's status object
after the call, and the new state. -/
def Communication.recv {T : Type} (sub : Substrate T) (self : Communication) (Ty : TypeId)
    (data : List T) (source_rank tag : Int) (status : Option MPI_Status) (w : World) :
    List T × Option MPI_Status × World :=
  let r := sub.MPI_Recv data (MPIData.size data) Ty source_rank tag self.communicator
  (r.2.1, status.map (fun _ => r.2.2),
   w.record (Call.Recv (MPIData.size data) Ty source_rank tag self.communicator))

/-- `T rrecv(T&& data, int source_rank, int tag, MPI_Status* status = MPI_STATUS_IGNORE) const`,
for a resizable `T` (the `static_assert` rejects the others). -/
def Communication.rrecv {T : Type} (sub : Substrate T) (self : Communication) (Ty : TypeId)
    (zero : T) (data : List T) (source_rank tag : Int) (status : Option MPI_Status)
    (w : World) : List T × Option MPI_Status × World :=
  let probed := sub.MPI_Mprobe source_rank tag self.communicator
  let w1 := w.record (Call.Mprobe source_rank tag self.communicator)
  let size := (sub.MPI_Get_count probed.2.2 Ty).2
  let w2 := w1.record (Call.Get_count Ty)
  let mpi_data := MPIData.resize zero data size
  let r := sub.MPI_Mrecv mpi_data (MPIData.size mpi_data) Ty probed.2.1
  let w3 := w2.record (Call.Mrecv (MPIData.size mpi_data) Ty)
  (r.2.1, status.map (fun _ => r.2.2), w3)

/-! ## `Communication<MPI_Comm>`: barrier, broadcast, gather, scatter -/

/-- `int barrier () const`. -/
def Communication.barrier {T : Type} (sub : Substrate T) (self : Communication) (w : World) :
    Int × World :=
  (sub.MPI_Barrier self.communicator, w.record (Call.Barrier self.communicator))

/-- `int broadcast (T* inout, int len, int root) const`; the result is the status and
the buffer after the call. -/
def Communication.broadcast {T : Type} (sub : Substrate T) (self : Communication)
    (Ty : TypeId) (inout : List T) (len root : Int) (w : World) : Int × List T × World :=
  let r := sub.MPI_Bcast inout len Ty root self.communicator
  (r.1, r.2, w.record (Call.Bcast len Ty root self.communicator))

/-- `int gather (const T* in, T* out, int len, int root) const`. -/
def Communication.gather {T : Type} (sub : Substrate T) (self : Communication) (Ty : TypeId)
    (inB out : List T) (len root : Int) (w : World) : Int × List T × World :=
  let r := sub.MPI_Gather inB len out len Ty root self.communicator
  (r.1, r.2, w.record (Call.Gather len len Ty root self.communicator))

/-- `int gatherv (const T* in, int sendlen, T* out, int* recvlen, int* displ, int root) const`. -/
def Communication.gatherv {T : Type} (sub : Substrate T) (self : Communication) (Ty : TypeId)
    (inB : List T) (sendlen : Int) (out : List T) (recvlen displ : List Int) (root : Int)
    (w : World) : Int × List T × World :=
  let r := sub.MPI_Gatherv inB sendlen out recvlen displ Ty root self.communicator
  (r.1, r.2, w.record (Call.Gatherv sendlen recvlen displ Ty root self.communicator))

/-- `int scatter (const T* send, T* recv, int len, int root) const`. -/
def Communication.scatter {T : Type} (sub : Substrate T) (self : Communication) (Ty : TypeId)
    (send recv : List T) (len root : Int) (w : World) : Int × List T × World :=
  let r := sub.MPI_Scatter send len recv len Ty root self.communicator
  (r.1, r.2, w.record (Call.Scatter len len Ty root self.communicator))

/-- `int scatterv (const T* send, int* sendlen, int* displ, T* recv, int recvlen, int root) const`. -/
def Communication.scatterv {T : Type} (sub : Substrate T) (self : Communication) (Ty : TypeId)
    (send : List T) (sendlen displ : List Int) (recv : List T) (recvlen root : Int)
    (w : World) : Int × List T × World :=
  let r := sub.MPI_Scatterv send sendlen displ recv recvlen Ty root self.communicator
  (r.1, r.2, w.record (Call.Scatterv sendlen displ recvlen Ty root self.communicator))

/-- `int allgather(const T* sbuf, int count, T1* rbuf) const`, for `T1 = T`. -/
def Communication.allgather {T : Type} (sub : Substrate T) (self : Communication)
    (Ty : TypeId) (sbuf : List T) (count : Int) (rbuf : List T) (w : World) :
    Int × List T × World :=
  let r := sub.MPI_Allgather sbuf count rbuf count Ty self.communicator
  (r.1, r.2, w.record (Call.Allgather count count Ty self.communicator))

/-- `int allgatherv (const T* in, int sendlen, T* out, int* recvlen, int* displ) const`. -/
def Communication.allgatherv {T : Type} (sub : Substrate T) (self : Communication)
    (Ty : TypeId) (inB : List T) (sendlen : Int) (out : List T) (recvlen displ : List Int)
    (w : World) : Int × List T × World :=
  let r := sub.MPI_Allgatherv inB sendlen out recvlen displ Ty self.communicator
  (r.1, r.2, w.record (Call.Allgatherv sendlen recvlen displ Ty self.communicator))

/-! ## `Communication<MPI_Comm>`: non-blocking gather and scatter

`NDEBUG` tells whether `assert` is compiled out. -/

/-- `MPIFuture<TOUT, TIN> igather(TIN&& data_in, TOUT&& data_out, int root)`.
In `me==root * future.send_data_->size()` the product binds tighter than the
comparison, and the `bool` it yields is converted to `int`. -/
def Communication.igather {T : Type} (sub : Substrate T) (NDEBUG : Bool)
    (self : Communication) (data_in data_out : List T) (root : Int) (w : World) :
    Except Exception (MPIFuture T) × World :=
  if !NDEBUG && !(decide (root ≠ self.me) ||
      decide (MPIData.size data_in * self.procs ≤ MPIData.size data_out)) then
    (Except.error (Exception.assertion
      "root != me || future.send_data_->size()*procs <= future.data_->size()"), w)
  else
    let outlen : Int := boolToInt (decide (self.me = root * MPIData.size data_in))
    let r := sub.MPI_Igather data_in (MPIData.size data_in) data_out outlen root
      self.communicator
    (Except.ok ⟨data_out, data_in, r.2⟩,
     w.record (Call.Igather (MPIData.size data_in) outlen root self.communicator))

/-- `MPIFuture<TOUT, TIN> iscatter(TIN&& data_in, TOUT&& data_out, int root) const`. -/
def Communication.iscatter {T : Type} (sub : Substrate T) (self : Communication)
    (data_in data_out : List T) (root : Int) (w : World) : MPIFuture T × World :=
  let inlen : Int := boolToInt (decide (self.me = root * MPIData.size data_in))
  let r := sub.MPI_Iscatter data_in inlen data_out (MPIData.size data_out) root
    self.communicator
  (⟨data_out, data_in, r.2⟩,
   w.record (Call.Iscatter inlen (MPIData.size data_out) root self.communicator))

/-- `MPIFuture<TOUT, TIN> iallgather(TIN&& data_in, TOUT&& data_out) const`. -/
def Communication.iallgather {T : Type} (sub : Substrate T) (NDEBUG : Bool)
    (self : Communication) (data_in data_out : List T) (w : World) :
    Except Exception (MPIFuture T) × World :=
  if !NDEBUG && !decide (MPIData.size data_in * self.procs ≤ MPIData.size data_out) then
    (Except.error (Exception.assertion
      "future.send_data_->size()*procs <= future.data_->size()"), w)
  else
    let outlen : Int := MPIData.size data_in
    let r := sub.MPI_Iallgather data_in (MPIData.size data_in) data_out outlen
      self.communicator
    (Except.ok ⟨data_out, data_in, r.2⟩,
     w.record (Call.Iallgather (MPIData.size data_in) outlen self.communicator))

/-! ## `Communication<MPI_Comm>`: all-reduce and the sum/prod/min/max family -/

/-- `int allreduce(const Type* in, Type* out, int len) const`, with template
argument `BinaryFunction`.  The operator handle is resolved before the
primitive is called. -/
def Communication.allreduce {T : Type} (sub : Substrate T) (is_intrinsic : TypeId → Bool)
    (self : Communication) (Ty : TypeId) (F : BinaryFunction) (inB out : List T) (len : Int)
    (w : World) : Int × List T × World :=
  let resolved := Generic_MPI_Op.get sub is_intrinsic Ty F w
  let r := sub.MPI_Allreduce (some inB) out len Ty resolved.1 self.communicator
  (r.1, r.2, resolved.2.record (Call.Allreduce false len Ty resolved.1 self.communicator))

/-- `std::copy(out, out+len, inout)` on buffers of at least `len` elements. -/
def stdCopy {T : Type} (out : List T) (len : Nat) (inout : List T) : List T :=
  out.take len ++ inout.drop len

/-- `int allreduce(Type* inout, int len) const`, with template argument
`BinaryFunction`: `new Type[len]` (elements `uninit`), the out-of-place
all-reduce, and the copy back.  The result is the status and `inout` after the
call. -/
def Communication.allreduceInPlace {T : Type} (sub : Substrate T)
    (is_intrinsic : TypeId → Bool) (self : Communication) (Ty : TypeId) (F : BinaryFunction)
    (uninit : T) (inout : List T) (len : Int) (w : World) :
    Except Exception (Int × List T) × World :=
  if len < 0 then
    (Except.error Exception.bad_array_new_length, w)
  else
    let out := List.replicate len.toNat uninit
    let r := Communication.allreduce sub is_intrinsic self Ty F inout out len w
    (Except.ok (r.1, stdCopy r.2.1 len.toNat inout), r.2.2)

/-- `Type allreduce(Type&& in) const`, with template argument `BinaryFunction`:
the all-reduce with `MPI_IN_PLACE` on the adapted value. -/
def Communication.allreduceValue {T : Type} (sub : Substrate T)
    (is_intrinsic : TypeId → Bool) (self : Communication) (Ty : TypeId) (F : BinaryFunction)
    (data : List T) (w : World) : List T × World :=
  let resolved := Generic_MPI_Op.get sub is_intrinsic Ty F w
  let r := sub.MPI_Allreduce none data (MPIData.size data) Ty resolved.1 self.communicator
  (r.2, resolved.2.record
    (Call.Allreduce true (MPIData.size data) Ty resolved.1 self.communicator))

/-- The body shared by `T sum (const T& in) const` and its siblings:
`T out; allreduce<F>(&in,&out,1); return out;`.  `uninit` is the content of
`out` before the call. -/
def Communication.reduceValue {T : Type} (sub : Substrate T) (is_intrinsic : TypeId → Bool)
    (self : Communication) (Ty : TypeId) (F : BinaryFunction) (uninit : T) (inV : T)
    (w : World) : T × World :=
  let r := Communication.allreduce sub is_intrinsic self Ty F [inV] [uninit] 1 w
  (r.2.1.headD uninit, r.2.2)

/-- `T sum (const T& in) const`. -/
def Communication.sum {T : Type} (sub : Substrate T) (is_intrinsic : TypeId → Bool)
    (self : Communication) (Ty : TypeId) (uninit : T) (inV : T) (w : World) : T × World :=
  Communication.reduceValue sub is_intrinsic self Ty (BinaryFunction.plus Ty) uninit inV w

/-- `T prod (const T& in) const`. -/
def Communication.prod {T : Type} (sub : Substrate T) (is_intrinsic : TypeId → Bool)
    (self : Communication) (Ty : TypeId) (uninit : T) (inV : T) (w : World) : T × World :=
  Communication.reduceValue sub is_intrinsic self Ty (BinaryFunction.multiplies Ty) uninit inV w

/-- `T min (const T& in) const`. -/
def Communication.min {T : Type} (sub : Substrate T) (is_intrinsic : TypeId → Bool)
    (self : Communication) (Ty : TypeId) (uninit : T) (inV : T) (w : World) : T × World :=
  Communication.reduceValue sub is_intrinsic self Ty (BinaryFunction.Min Ty) uninit inV w

/-- `T max (const T& in) const`. -/
def Communication.max {T : Type} (sub : Substrate T) (is_intrinsic : TypeId → Bool)
    (self : Communication) (Ty : TypeId) (uninit : T) (inV : T) (w : World) : T × World :=
  Communication.reduceValue sub is_intrinsic self Ty (BinaryFunction.Max Ty) uninit inV w

/-- `int sum (T* inout, int len) const`. -/
def Communication.sumArray {T : Type} (sub : Substrate T) (is_intrinsic : TypeId → Bool)
    (self : Communication) (Ty : TypeId) (uninit : T) (inout : List T) (len : Int)
    (w : World) : Except Exception (Int × List T) × World :=
  Communication.allreduceInPlace sub is_intrinsic self Ty (BinaryFunction.plus Ty) uninit
    inout len w

/-- `int prod (T* inout, int len) const`. -/
def Communication.prodArray {T : Type} (sub : Substrate T) (is_intrinsic : TypeId → Bool)
    (self : Communication) (Ty : TypeId) (uninit : T) (inout : List T) (len : Int)
    (w : World) : Except Exception (Int × List T) × World :=
  Communication.allreduceInPlace sub is_intrinsic self Ty (BinaryFunction.multiplies Ty) uninit
    inout len w

/-- `int min (T* inout, int len) const`. -/
def Communication.minArray {T : Type} (sub : Substrate T) (is_intrinsic : TypeId → Bool)
    (self : Communication) (Ty : TypeId) (uninit : T) (inout : List T) (len : Int)
    (w : World) : Except Exception (Int × List T) × World :=
  Communication.allreduceInPlace sub is_intrinsic self Ty (BinaryFunction.Min Ty) uninit
    inout len w

/-- `int max (T* inout, int len) const`. -/
def Communication.maxArray {T : Type} (sub : Substrate T) (is_intrinsic : TypeId → Bool)
    (self : Communication) (Ty : TypeId) (uninit : T) (inout : List T) (len : Int)
    (w : World) : Except Exception (Int × List T) × World :=
  Communication.allreduceInPlace sub is_intrinsic self Ty (BinaryFunction.Max Ty) uninit
    inout len w

/-! ## A group of participants holding integers

The substrate seen by one participant of a group in which every participant
calls the same all-reduce with a buffer of one `int`.  An `int` has 32 bits:
its values are the integers from `INT_MIN` to `INT_MAX`, and a sum or product
that does not fit wraps (`intWrap`). -/

/-- The smallest value of `int` (32 bits, two's complement). -/
def INT_MIN : Int := -2147483648

/-- The largest value of `int` (32 bits, two's complement). -/
def INT_MAX : Int := 2147483647

/-- The value of type `int` that holds the result of an addition or
multiplication of `int`s whose mathematical result is `x`: the result wraps at
32 bits, as on two's-complement hardware. -/
def intWrap (x : Int) : Int := (x + 2147483648) % 4294967296 - 2147483648

/-- The success status `MPI_SUCCESS`. -/
def MPI_SUCCESS : Int := 0

/-- A substrate whose primitives all succeed and leave every buffer as it is. -/
def idleSubstrate (T : Type) : Substrate T where
  MPI_Initialized := 1
  MPI_Comm_rank := fun _ => 0
  MPI_Comm_size := fun _ => 1
  MPI_Op_create := fun n _ _ _ => (MPI_SUCCESS, MPI_Op.created n)
  MPI_Send := fun _ _ _ _ _ _ => MPI_SUCCESS
  MPI_Recv := fun buf _ _ source tag _ => (MPI_SUCCESS, buf, ⟨source, tag, MPI_SUCCESS, 0⟩)
  MPI_Mprobe := fun source tag _ => (MPI_SUCCESS, ⟨0⟩, ⟨source, tag, MPI_SUCCESS, 0⟩)
  MPI_Get_count := fun status _ => (MPI_SUCCESS, status.count)
  MPI_Mrecv := fun buf _ _ _ => (MPI_SUCCESS, buf, ⟨0, 0, MPI_SUCCESS, 0⟩)
  MPI_Barrier := fun _ => MPI_SUCCESS
  MPI_Bcast := fun buf _ _ _ _ => (MPI_SUCCESS, buf)
  MPI_Gather := fun _ _ recvbuf _ _ _ _ => (MPI_SUCCESS, recvbuf)
  MPI_Igather := fun _ _ _ _ _ _ => (MPI_SUCCESS, ⟨0⟩)
  MPI_Gatherv := fun _ _ recvbuf _ _ _ _ _ => (MPI_SUCCESS, recvbuf)
  MPI_Scatter := fun _ _ recvbuf _ _ _ _ => (MPI_SUCCESS, recvbuf)
  MPI_Iscatter := fun _ _ _ _ _ _ => (MPI_SUCCESS, ⟨0⟩)
  MPI_Scatterv := fun _ _ _ recvbuf _ _ _ _ => (MPI_SUCCESS, recvbuf)
  MPI_Allgather := fun _ _ recvbuf _ _ _ => (MPI_SUCCESS, recvbuf)
  MPI_Iallgather := fun _ _ _ _ _ => (MPI_SUCCESS, ⟨0⟩)
  MPI_Allgatherv := fun _ _ recvbuf _ _ _ _ => (MPI_SUCCESS, recvbuf)
  MPI_Allreduce := fun _ recvbuf _ _ _ _ => (MPI_SUCCESS, recvbuf)

/-- The handle the group substrate gives to the callback registered for a
functor: one handle per functor template. -/
def groupHandle : BinaryFunction → MPI_Op
  | BinaryFunction.plus _ => MPI_Op.created 0
  | BinaryFunction.multiplies _ => MPI_Op.created 1
  | BinaryFunction.Min _ => MPI_Op.created 2
  | BinaryFunction.Max _ => MPI_Op.created 3
  | BinaryFunction.other _ => MPI_Op.created 4

/-- Modelled from the spec: one pairwise combination of the all-reduce,
`inout := in op inout` on the first `len` elements of buffers of `int`.  A
native handle is the substrate's own sum, product, minimum or maximum of
`int`s; a created handle runs the registered callback
`Generic_MPI_Op::operation` with the functor of its registration
(`groupHandle`): `std::plus<int>` adds and `std::multiplies<int>` multiplies
in `int` (the result wraps at 32 bits), `Min` and `Max` (of
`binaryfunctions.hh`) return the smaller and the larger argument; a functor of
another class has no meaning on `int` here. -/
def reduceStep (op : MPI_Op) (len : Int) (inB inoutB : List Int) : Option (List Int) :=
  match op with
  | MPI_Op.MPI_SUM =>
    some (stdCopy (List.zipWith (fun a b => intWrap (a + b)) inB inoutB) len.toNat inoutB)
  | MPI_Op.MPI_PROD =>
    some (stdCopy (List.zipWith (fun a b => intWrap (a * b)) inB inoutB) len.toNat inoutB)
  | MPI_Op.MPI_MIN => some (stdCopy (List.zipWith (fun a b => min a b) inB inoutB) len.toNat inoutB)
  | MPI_Op.MPI_MAX => some (stdCopy (List.zipWith (fun a b => max a b) inB inoutB) len.toNat inoutB)
  | MPI_Op.created 0 =>
    (Generic_MPI_Op.operation (fun a b => intWrap (a + b)) inB inoutB len).map Prod.snd
  | MPI_Op.created 1 =>
    (Generic_MPI_Op.operation (fun a b => intWrap (a * b)) inB inoutB len).map Prod.snd
  | MPI_Op.created 2 =>
    (Generic_MPI_Op.operation (fun a b => if a ≤ b then a else b) inB inoutB len).map Prod.snd
  | MPI_Op.created 3 =>
    (Generic_MPI_Op.operation (fun a b => if a ≤ b then b else a) inB inoutB len).map Prod.snd
  | MPI_Op.created _ => none

/-- Modelled from the spec: the all-reduce combines the participants' buffers
pairwise with the operator, here from the highest rank down:
`b0 op (b1 op (... op bN))`.  No participant, no result. -/
def reduceAll (op : MPI_Op) (len : Int) : List (List Int) → Option (List Int)
  | [] => none
  | [b] => some b
  | b :: rest => (reduceAll op len rest).bind (reduceStep op len b)

/-- Modelled from the spec: the substrate seen by participant `me` of a group
whose participant `i` calls the all-reduce with the one-element buffer
`[locals[i]]`: the group has `locals.length` participants, a registration
returns the handle of the registered callback, and the all-reduce writes the
combination of all participants' buffers (this participant's own buffer being
the one it passes) into the first `count` elements of the receive buffer. -/
def groupSubstrate (locals : List Int) (me : Nat) : Substrate Int :=
  { idleSubstrate Int with
    MPI_Comm_rank := fun _ => me
    MPI_Comm_size := fun _ => locals.length
    MPI_Op_create := fun _ _ F _ => (MPI_SUCCESS, groupHandle F)
    MPI_Allreduce := fun sendbuf recvbuf count _ op _ =>
      match reduceAll op count ((locals.map (fun v => [v])).set me (sendbuf.getD recvbuf)) with
      | some r => (MPI_SUCCESS, stdCopy r count.toNat recvbuf)
      | none => (1, recvbuf) }

/-! ## Call sequences and substrates used in the statements -/

/-- The handles returned by `n` successive calls of
`Generic_MPI_Op<Type, BinaryFunction>::get()`, and the state after the last. -/
def Generic_MPI_Op.getTimes {T : Type} (sub : Substrate T) (is_intrinsic : TypeId → Bool)
    (Ty : TypeId) (F : BinaryFunction) : Nat → World → List MPI_Op × World
  | 0, w => ([], w)
  | n + 1, w =>
    let first := Generic_MPI_Op.get sub is_intrinsic Ty F w
    let rest := Generic_MPI_Op.getTimes sub is_intrinsic Ty F n first.2
    (first.1 :: rest.1, rest.2)

/-- The substrate `sub` with the status code of every primitive replaced by
`code`; what the primitives write is kept. -/
def Substrate.withStatus {T : Type} (sub : Substrate T) (code : Int) : Substrate T where
  MPI_Initialized := sub.MPI_Initialized
  MPI_Comm_rank := sub.MPI_Comm_rank
  MPI_Comm_size := sub.MPI_Comm_size
  MPI_Op_create := fun n t f c => (code, (sub.MPI_Op_create n t f c).2)
  MPI_Send := fun _ _ _ _ _ _ => code
  MPI_Recv := fun b n t s g c => (code, (sub.MPI_Recv b n t s g c).2)
  MPI_Mprobe := fun s g c => (code, (sub.MPI_Mprobe s g c).2)
  MPI_Get_count := fun st t => (code, (sub.MPI_Get_count st t).2)
  MPI_Mrecv := fun b n t m => (code, (sub.MPI_Mrecv b n t m).2)
  MPI_Barrier := fun _ => code
  MPI_Bcast := fun b n t r c => (code, (sub.MPI_Bcast b n t r c).2)
  MPI_Gather := fun a n b m t r c => (code, (sub.MPI_Gather a n b m t r c).2)
  MPI_Igather := fun a n b m r c => (code, (sub.MPI_Igather a n b m r c).2)
  MPI_Gatherv := fun a n b m d t r c => (code, (sub.MPI_Gatherv a n b m d t r c).2)
  MPI_Scatter := fun a n b m t r c => (code, (sub.MPI_Scatter a n b m t r c).2)
  MPI_Iscatter := fun a n b m r c => (code, (sub.MPI_Iscatter a n b m r c).2)
  MPI_Scatterv := fun a n d b m t r c => (code, (sub.MPI_Scatterv a n d b m t r c).2)
  MPI_Allgather := fun a n b m t c => (code, (sub.MPI_Allgather a n b m t c).2)
  MPI_Iallgather := fun a n b m c => (code, (sub.MPI_Iallgather a n b m c).2)
  MPI_Allgatherv := fun a n b m d t c => (code, (sub.MPI_Allgatherv a n b m d t c).2)
  MPI_Allreduce := fun a b n t o c => (code, (sub.MPI_Allreduce a b n t o c).2)

/-- The Communication the constructor builds over the null group. -/
def nullCommunication : Communication := ⟨MPI_COMM_NULL, -1, 0⟩

/-! ## Compile-time rejection, and `rrecv` as a template -/

/-- Ways an instantiation of a template is rejected at compile time: the
`static_assert` of `rrecv` ("rrecv work only for non-static-sized types."),
the two `dune_static_assert`s of `FirstPredicateIndex` (the one on the `size`
parameter, and "None of the tuple element types matches the predicate!"), and
`tuple_element` at an index that is not below the tuple size. -/
inductive CompileError where
  | rrecv_static_size
  | size_set_explicitly
  | none_matches
  | tuple_element_out_of_range
deriving DecidableEq, Repr

/-- The member template `rrecv` instantiated for a buffer type: the
`static_assert(!mpi_data.static_size, ...)` rejects the instantiation when the
adapter of the type has `static_size` (a constant of `mpidata.hh`, true for
fixed-size types); otherwise the call runs the body `Communication.rrecv`. -/
def Communication.rrecvInstantiated {T : Type} (static_size : Bool) (sub : Substrate T)
    (self : Communication) (Ty : TypeId) (zero : T) (data : List T) (source_rank tag : Int)
    (status : Option MPI_Status) (w : World) :
    Except CompileError (List T × Option MPI_Status × World) :=
  if static_size then
    Except.error CompileError.rrecv_static_size
  else
    Except.ok (Communication.rrecv sub self Ty zero data source_rank tag status w)

/-! ## `tuples/firstindex.hh`

A tuple type is the list of its element types; `Predicate<U>::value` is a
function from types to `bool`. -/

/-- The class template `FirstPredicateIndex<Tuple, Predicate, start, size>`;
the result is its member constant `value`, or the reason why the instantiation
is rejected.  The specialisation for `start == size` only holds the failing
assertion.  The primary template derives from
`SelectType<Predicate<tuple_element<start,Tuple>::type>::value,
integral_constant<std::size_t,start>, FirstPredicateIndex<Tuple,Predicate,start+1> >::Type`
(the class not selected is not instantiated; the selected recursive class has
`size` defaulted to the tuple size), and its body asserts that `size` is the
tuple size. -/
def FirstPredicateIndex (Tuple : List TypeId) (Predicate : TypeId → Bool) (start size : Nat) :
    Except CompileError Nat :=
  if start = size then
    Except.error CompileError.none_matches
  else if _hlt : start < Tuple.length then
    match (if Predicate Tuple[start] then Except.ok start
        else FirstPredicateIndex Tuple Predicate (start + 1) Tuple.length) with
    | Except.error e => Except.error e
    | Except.ok value =>
      if Tuple.length = size then Except.ok value
      else Except.error CompileError.size_set_explicitly
  else
    Except.error CompileError.tuple_element_out_of_range
termination_by Tuple.length - start
decreasing_by omega

/-- The class template `FirstTypeIndex<Tuple, T, start>`: the `value` of its member
`type`, which is `FirstPredicateIndex<Tuple, IsSameTypePredicate, start>::type`
with `IsSameTypePredicate<U>` being `is_same<T, U>`. -/
def FirstTypeIndex (Tuple : List TypeId) (T : TypeId) (start : Nat) : Except CompileError Nat :=
  FirstPredicateIndex Tuple (fun U => decide (T = U)) start Tuple.length

/-! ## `tuples/integralconstant.hh`

A tuple of integral constants is the list of its element types
`integral_constant<T, v>`. -/

/-- The type `integral_constant<T, v>`, given by its value `v`. -/
structure integral_constant (T : Type) where
  value : T
deriving DecidableEq, Repr

/-- Modelled from the spec: `PushBackTuple<Tuple, T>::type` of `modifiers.hh`,
the tuple type `Tuple` with the element type `T` added at the end. -/
def PushBackTuple {E : Type} (Tuple : List E) (T : E) : List E := Tuple ++ [T]

/-- Modelled from the spec: `PushFrontTuple<Tuple, T>::type` of `modifiers.hh`,
the tuple type `Tuple` with the element type `T` added at the front. -/
def PushFrontTuple {E : Type} (Tuple : List E) (T : E) : List E := T :: Tuple

/-- The variadic definition (`HAVE_VARIADIC_TEMPLATES`):
`IntegralConstantTuple<T, v, w...>::Type`. -/
def IntegralConstantTuple.variadic {T : Type} : T → List T → List (integral_constant T)
  | v, [] => [⟨v⟩]
  | v, w :: ws => PushFrontTuple (IntegralConstantTuple.variadic w ws) ⟨v⟩

/-- One more than the position of the last of nine arguments that is not
`unused`, 0 when all are: the number of `Create` instantiations still to come
before the all-unused specialisation is reached. -/
def IntegralConstantTuple.usedSlots {T : Type} [DecidableEq T] (unused : T)
    (u1 u2 u3 u4 u5 u6 u7 u8 u9 : T) : Nat :=
  if u9 ≠ unused then 9 else if u8 ≠ unused then 8 else if u7 ≠ unused then 7
  else if u6 ≠ unused then 6 else if u5 ≠ unused then 5 else if u4 ≠ unused then 4
  else if u3 ≠ unused then 3 else if u2 ≠ unused then 2 else if u1 ≠ unused then 1 else 0

/-- The member template `Create<u1, ..., u9, Seed>::Type` of the fallback
definition: the specialisation for nine `unused` arguments is `Seed`; the
primary template pushes `integral_constant<T, u1>` to the back of `Seed` and
continues with `u2, ..., u9, unused`.  `unused` is
`IntegralConstantTupleTraits<T>::unused`. -/
def IntegralConstantTuple.Create {T : Type} [DecidableEq T] (unused : T)
    (u1 u2 u3 u4 u5 u6 u7 u8 u9 : T) (Seed : List (integral_constant T)) :
    List (integral_constant T) :=
  if _hall : u1 = unused ∧ u2 = unused ∧ u3 = unused ∧ u4 = unused ∧ u5 = unused ∧
      u6 = unused ∧ u7 = unused ∧ u8 = unused ∧ u9 = unused then
    Seed
  else
    let Accumulated := PushBackTuple Seed ⟨u1⟩
    IntegralConstantTuple.Create unused u2 u3 u4 u5 u6 u7 u8 u9 unused Accumulated
termination_by IntegralConstantTuple.usedSlots unused u1 u2 u3 u4 u5 u6 u7 u8 u9
decreasing_by
  simp only [IntegralConstantTuple.usedSlots]
  by_cases h9 : u9 = unused
  swap
  · simp [h9]
  by_cases h8 : u8 = unused
  swap
  · simp [h9, h8]
  by_cases h7 : u7 = unused
  swap
  · simp [h9, h8, h7]
  by_cases h6 : u6 = unused
  swap
  · simp [h9, h8, h7, h6]
  by_cases h5 : u5 = unused
  swap
  · simp [h9, h8, h7, h6, h5]
  by_cases h4 : u4 = unused
  swap
  · simp [h9, h8, h7, h6, h5, h4]
  by_cases h3 : u3 = unused
  swap
  · simp [h9, h8, h7, h6, h5, h4, h3]
  by_cases h2 : u2 = unused
  swap
  · simp [h9, h8, h7, h6, h5, h4, h3, h2]
  by_cases h1 : u1 = unused
  swap
  · simp [h9, h8, h7, h6, h5, h4, h3, h2, h1]
  exact absurd ⟨h1, h2, h3, h4, h5, h6, h7, h8, h9⟩ _hall

/-- The fallback definition (no variadic templates):
`IntegralConstantTuple<T, v, w1, ..., w8>::Type`, which is
`Create<v, w1, ..., w8>::Type` with the empty tuple as seed. -/
def IntegralConstantTuple.fallback {T : Type} [DecidableEq T] (unused : T)
    (v w1 w2 w3 w4 w5 w6 w7 w8 : T) : List (integral_constant T) :=
  IntegralConstantTuple.Create unused v w1 w2 w3 w4 w5 w6 w7 w8 []

/-- The fallback definition named with the values `v, ws...` only (at most
eight after `v`): the template arguments that are not given take their
default, `unused`. -/
def IntegralConstantTuple.fallbackOf {T : Type} [DecidableEq T] (unused : T) (v : T)
    (ws : List T) : List (integral_constant T) :=
  IntegralConstantTuple.fallback unused v (ws.getD 0 unused) (ws.getD 1 unused)
    (ws.getD 2 unused) (ws.getD 3 unused) (ws.getD 4 unused) (ws.getD 5 unused)
    (ws.getD 6 unused) (ws.getD 7 unused)

/-! ## Theorems: construction, rank and size -/

/-- C1: constructing a Communication over a group handle ends with a
ParallelError exactly when the handle is not the null group and the substrate
reports that it is not initialized (the flag it writes is 0); over the null
group the construction succeeds whatever the substrate says, and over a
non-null group with an initialized substrate it succeeds. -/
theorem construct_fails_iff_uninitialized {T : Type} (sub : Substrate T) (c : MPI_Comm)
    (w : World) :
    (failsWithParallelError (Communication.construct sub c w).1 = true ↔
      (c ≠ MPI_COMM_NULL ∧ sub.MPI_Initialized = 0)) ∧
    (∃ comm, (Communication.construct sub MPI_COMM_NULL w).1 = Except.ok comm) ∧
    ((c ≠ MPI_COMM_NULL ∧ sub.MPI_Initialized ≠ 0) →
      ∃ comm, (Communication.construct sub c w).1 = Except.ok comm) := by
  refine ⟨?_, ?_, ?_⟩
  · by_cases hc : c = MPI_COMM_NULL
    · simp [Communication.construct, hc, failsWithParallelError]
    · by_cases hi : sub.MPI_Initialized = 0
      · simp [Communication.construct, hc, hi, failsWithParallelError]
      · simp [Communication.construct, hc, hi, failsWithParallelError]
  · exact ⟨⟨MPI_COMM_NULL, -1, 0⟩, by simp [Communication.construct]⟩
  · rintro ⟨hc, hi⟩
    exact ⟨⟨c, sub.MPI_Comm_rank c, sub.MPI_Comm_size c⟩,
      by simp [Communication.construct, hc, hi]⟩

/-- C1, at concrete inputs: with an uninitialized substrate the construction
over the world group throws, over the null group it does not; with an
initialized substrate the construction over the world group succeeds. -/
theorem construct_fails_iff_uninitialized_witness :
    failsWithParallelError
      (Communication.construct { idleSubstrate Int with MPI_Initialized := 0 }
        MPI_COMM_WORLD World.start).1 = true ∧
    (Communication.construct { idleSubstrate Int with MPI_Initialized := 0 }
        MPI_COMM_NULL World.start).1 = Except.ok ⟨MPI_COMM_NULL, -1, 0⟩ ∧
    (Communication.construct (idleSubstrate Int) MPI_COMM_WORLD World.start).1 =
      Except.ok ⟨MPI_COMM_WORLD, 0, 1⟩ := by
  have h := construct_fails_iff_uninitialized { idleSubstrate Int with MPI_Initialized := 0 }
    MPI_COMM_WORLD World.start
  exact ⟨h.1.2 ⟨by decide, rfl⟩, rfl, rfl⟩

/-- C2: after a successful construction `rank()` and `size()` are the values
resolved by the constructor.  Over the null group they are -1 and 0 and the
construction calls no substrate primitive at all (in particular not the rank
and size queries).  Over a non-null group the substrate is initialized, the
constructor asks it for the rank and the size of exactly that group handle,
and `rank()` and `size()` are what it answered. -/
theorem rank_size_resolved_at_construction {T : Type} (sub : Substrate T) (c : MPI_Comm)
    (w w1 : World) (comm : Communication)
    (h : Communication.construct sub c w = (Except.ok comm, w1)) :
    (c = MPI_COMM_NULL → comm.rank = -1 ∧ comm.size = 0 ∧ w1.calls = w.calls) ∧
    (c ≠ MPI_COMM_NULL → sub.MPI_Initialized ≠ 0 ∧
      comm.rank = sub.MPI_Comm_rank c ∧ comm.size = sub.MPI_Comm_size c ∧
      w1.calls = w.calls ++ [Call.Initialized, Call.Comm_rank c, Call.Comm_size c]) := by
  by_cases hc : c = MPI_COMM_NULL
  · simp only [Communication.construct, hc, ne_eq, not_true_eq_false, if_false,
      Prod.mk.injEq, Except.ok.injEq] at h
    obtain ⟨h1, h2⟩ := h
    subst h1 h2
    simp [hc, Communication.rank, Communication.size]
  · by_cases hi : sub.MPI_Initialized = 0
    · simp [Communication.construct, hc, hi] at h
    · simp only [Communication.construct, ne_eq, hc, not_false_eq_true, if_true, hi, if_false,
        Prod.mk.injEq, Except.ok.injEq] at h
      obtain ⟨h1, h2⟩ := h
      subst h1 h2
      simp [hc, hi, Communication.rank, Communication.size, World.record]

/-- C2, at concrete inputs: the world group of a substrate that answers rank 0
and size 1. -/
theorem rank_size_resolved_at_construction_witness :
    Communication.rank ⟨MPI_COMM_WORLD, 0, 1⟩ = (idleSubstrate Int).MPI_Comm_rank MPI_COMM_WORLD ∧
    Communication.size ⟨MPI_COMM_WORLD, 0, 1⟩ = (idleSubstrate Int).MPI_Comm_size MPI_COMM_WORLD :=
  let h := (rank_size_resolved_at_construction (idleSubstrate Int) MPI_COMM_WORLD World.start
    (Communication.construct (idleSubstrate Int) MPI_COMM_WORLD World.start).2
    ⟨MPI_COMM_WORLD, 0, 1⟩ rfl).2 (by decide)
  ⟨h.2.1, h.2.2.1⟩

/-! ## Theorems: the operator registry -/

/-- Once the static `op` of an instantiation is set, every further `get()`
returns it and changes nothing. -/
theorem Generic_MPI_Op.getTimes_cached {T : Type} (sub : Substrate T)
    (is_intrinsic : TypeId → Bool) (Ty : TypeId) (F : BinaryFunction) (h : MPI_Op)
    (hprim : Generic_MPI_Op.specialization is_intrinsic Ty F = none) (n : Nat) (w : World)
    (hw : w.op Ty F = some h) :
    Generic_MPI_Op.getTimes sub is_intrinsic Ty F n w = (List.replicate n h, w) := by
  induction n with
  | zero => rfl
  | succ n ih =>
    have hget : Generic_MPI_Op.get sub is_intrinsic Ty F w = (h, w) := by
      simp [Generic_MPI_Op.get, hprim, Generic_MPI_Op.getPrimary, hw]
    simp [Generic_MPI_Op.getTimes, hget, ih, List.replicate_succ]

/-- C3: operator registry memoization.  For a pair (element type, binary
function) that selects the primary template (a custom binary function) and
whose static `op` is still null (as in the empty cache at process start), any
`n >= 1` successive calls of `get()` all return one and the same handle, the
one the substrate handed out at the registration; over all `n` calls the
registration primitive is invoked exactly once, with commutative flag true;
and that one invocation happens in the first call. -/
theorem Generic_MPI_Op.get_memoized {T : Type} (sub : Substrate T)
    (is_intrinsic : TypeId → Bool) (Ty : TypeId) (F : BinaryFunction) (n : Nat) (w : World)
    (hprim : Generic_MPI_Op.specialization is_intrinsic Ty F = none)
    (hempty : w.op Ty F = none) (hn : 1 ≤ n) :
    (Generic_MPI_Op.getTimes sub is_intrinsic Ty F n w).1 =
        List.replicate n (sub.MPI_Op_create w.calls.length Ty F true).2 ∧
    (Generic_MPI_Op.getTimes sub is_intrinsic Ty F n w).2.calls =
        w.calls ++ [Call.Op_create Ty F true] ∧
    (Generic_MPI_Op.get sub is_intrinsic Ty F w).2.calls =
        w.calls ++ [Call.Op_create Ty F true] := by
  obtain ⟨m, rfl⟩ : ∃ m, n = m + 1 := ⟨n - 1, by omega⟩
  have hget : Generic_MPI_Op.get sub is_intrinsic Ty F w =
      ((sub.MPI_Op_create w.calls.length Ty F true).2,
       ⟨w.calls ++ [Call.Op_create Ty F true],
        fun t f => if t = Ty ∧ f = F then some (sub.MPI_Op_create w.calls.length Ty F true).2
          else w.op t f⟩) := by
    simp [Generic_MPI_Op.get, hprim, Generic_MPI_Op.getPrimary, hempty]
  have hrest := Generic_MPI_Op.getTimes_cached sub is_intrinsic Ty F
    (sub.MPI_Op_create w.calls.length Ty F true).2 hprim m
    ⟨w.calls ++ [Call.Op_create Ty F true],
        fun t f => if t = Ty ∧ f = F then some (sub.MPI_Op_create w.calls.length Ty F true).2
          else w.op t f⟩ (by simp)
  simp [Generic_MPI_Op.getTimes, hget, hrest, List.replicate_succ]

/-- C3, at concrete inputs: three calls for a custom functor on `double`, from
the state at process start. -/
theorem Generic_MPI_Op.get_memoized_witness :
    (Generic_MPI_Op.getTimes (idleSubstrate Int) (fun _ => false) "double"
        (BinaryFunction.other "MyOp") 3 World.start).1 =
      [MPI_Op.created 0, MPI_Op.created 0, MPI_Op.created 0] ∧
    (Generic_MPI_Op.getTimes (idleSubstrate Int) (fun _ => false) "double"
        (BinaryFunction.other "MyOp") 3 World.start).2.calls =
      [Call.Op_create "double" (BinaryFunction.other "MyOp") true] :=
  let h := Generic_MPI_Op.get_memoized (idleSubstrate Int) (fun _ => false) "double"
    (BinaryFunction.other "MyOp") 3 World.start rfl rfl (by decide)
  ⟨h.1, h.2.1⟩

/-- The loop of `operation` from counter `i` on: it ends, leaves `in` as it is,
leaves the elements of `inout` below `i` and from `len` on as they are, and
puts `func(in[j], inout[j])` at every `j` from `i` up to `len`. -/
theorem Generic_MPI_Op.operationLoop_spec {T : Type} (func : T → T → T) (len : Int)
    (inB : List T) (hin : len ≤ inB.length) :
    ∀ (k i : Nat) (cur : List T), (len - i).toNat = k → len ≤ cur.length →
      ∃ out, Generic_MPI_Op.operationLoop func len i inB cur = some (inB, out) ∧
        out.length = cur.length ∧
        (∀ j : Nat, j < i → out[j]? = cur[j]?) ∧
        (∀ j : Nat, i ≤ j → (j : Int) < len →
          ∃ a b, inB[j]? = some a ∧ cur[j]? = some b ∧ out[j]? = some (func a b)) ∧
        (∀ j : Nat, len ≤ (j : Int) → out[j]? = cur[j]?) := by
  intro k
  induction k with
  | zero =>
    intro i cur hk _
    have hge : ¬ ((i : Int) < len) := by omega
    refine ⟨cur, ?_, rfl, fun _ _ => rfl, ?_, fun _ _ => rfl⟩
    · rw [Generic_MPI_Op.operationLoop]; simp [hge]
    · intro j hij hj; omega
  | succ k ih =>
    intro i cur hk hcur
    have hlt : (i : Int) < len := by omega
    have hi1 : i < inB.length := by omega
    have hi2 : i < cur.length := by omega
    obtain ⟨out, hout, hlen, hlow, hmid, hhigh⟩ :=
      ih (i + 1) (cur.set i (func inB[i] cur[i])) (by omega) (by simpa using hcur)
    refine ⟨out, ?_, by simpa using hlen, ?_, ?_, ?_⟩
    · rw [Generic_MPI_Op.operationLoop]
      simp only [hlt, dite_true, List.getElem?_eq_getElem hi1, List.getElem?_eq_getElem hi2]
      exact hout
    · intro j hj
      rw [hlow j (by omega), List.getElem?_set_ne (by omega)]
    · intro j hij hj
      by_cases hji : j = i
      · subst hji
        refine ⟨inB[j], cur[j], List.getElem?_eq_getElem hi1, List.getElem?_eq_getElem hi2, ?_⟩
        rw [hlow j (by omega), List.getElem?_set_self hi2]
      · obtain ⟨a, b, ha, hb, hab⟩ := hmid j (by omega) hj
        rw [List.getElem?_set_ne (by omega)] at hb
        exact ⟨a, b, ha, hb, hab⟩
    · intro j hj
      rw [hhigh j hj, List.getElem?_set_ne (by omega)]

/-- C4: the reduction callback applies the binary function element-wise.  For
buffers `in` and `inout` of at least `len` elements, `operation(in, inout, len)`
returns; afterwards `in` is unchanged, `inout` has the length it had, every
`inout[i]` with `0 <= i < len` is `func(in[i], old inout[i])` (with `in` as the
first argument), and every element of `inout` at an index `>= len` is
unchanged. -/
theorem Generic_MPI_Op.operation_elementwise {T : Type} (func : T → T → T)
    (inB inoutB : List T) (len : Int) (hin : len ≤ inB.length) (hinout : len ≤ inoutB.length) :
    ∃ out, Generic_MPI_Op.operation func inB inoutB len = some (inB, out) ∧
      out.length = inoutB.length ∧
      (∀ i : Nat, (i : Int) < len →
        ∃ a b, inB[i]? = some a ∧ inoutB[i]? = some b ∧ out[i]? = some (func a b)) ∧
      (∀ i : Nat, len ≤ (i : Int) → out[i]? = inoutB[i]?) := by
  obtain ⟨out, hout, hlen, _, hmid, hhigh⟩ :=
    Generic_MPI_Op.operationLoop_spec func len inB hin (len - (0 : Nat)).toNat 0 inoutB rfl hinout
  exact ⟨out, hout, hlen, fun i hi => hmid i (Nat.zero_le i) hi, hhigh⟩

/-- C4, at concrete inputs: subtraction (not commutative, so the argument
order shows) on the first two elements of buffers of three and four elements. -/
theorem Generic_MPI_Op.operation_elementwise_witness :
    (∃ out, Generic_MPI_Op.operation (fun a b : Int => a - b) [10, 20, 30] [1, 2, 3, 4] 2 =
        some ([10, 20, 30], out) ∧
      out.length = 4 ∧
      (∀ i : Nat, (i : Int) < 2 →
        ∃ a b, [10, 20, 30][i]? = some a ∧ [1, 2, 3, 4][i]? = some b ∧
          out[i]? = some (a - b)) ∧
      (∀ i : Nat, (2 : Int) ≤ (i : Int) → out[i]? = [1, 2, 3, 4][i]?)) ∧
    Generic_MPI_Op.operation (fun a b : Int => a - b) [10, 20, 30] [1, 2, 3, 4] 2 =
      some ([10, 20, 30], [9, 18, 3, 4]) :=
  ⟨Generic_MPI_Op.operation_elementwise (fun a b : Int => a - b) [10, 20, 30] [1, 2, 3, 4] 2
    (by decide) (by decide),
   by simp [Generic_MPI_Op.operation, Generic_MPI_Op.operationLoop]⟩

/-- C5 as stated fails: the choice between the native handles and the
registering path is not made on the element type.  With `int` primitive and
`Aggregate` not: the element type `Aggregate` with `std::plus<int>` resolves to
`MPI_SUM` without any registration, and the element type `int` with
`std::plus<Aggregate>` goes through the registering path. -/
theorem Generic_MPI_Op.resolution_by_element_type_counterexample :
    (fun t : TypeId => decide (t = "int")) "Aggregate" = false ∧
    Generic_MPI_Op.specialization (fun t => decide (t = "int")) "Aggregate"
      (BinaryFunction.plus "int") = some MPI_Op.MPI_SUM ∧
    (Generic_MPI_Op.get (idleSubstrate Int) (fun t => decide (t = "int")) "Aggregate"
      (BinaryFunction.plus "int") World.start).1 = MPI_Op.MPI_SUM ∧
    (Generic_MPI_Op.get (idleSubstrate Int) (fun t => decide (t = "int")) "Aggregate"
      (BinaryFunction.plus "int") World.start).2.calls = [] ∧
    (fun t : TypeId => decide (t = "int")) "int" = true ∧
    Generic_MPI_Op.specialization (fun t => decide (t = "int")) "int"
      (BinaryFunction.plus "Aggregate") = none ∧
    (Generic_MPI_Op.get (idleSubstrate Int) (fun t => decide (t = "int")) "int"
      (BinaryFunction.plus "Aggregate") World.start).2.calls =
      [Call.Op_create "int" (BinaryFunction.plus "Aggregate") true] := by
  refine ⟨by decide, by decide, by decide, by decide, by decide, by decide, by decide⟩

/-- C5, amended: the resolution has two branches, chosen by the argument type
`S` of the functor.  For `std::plus<S>`, `std::multiplies<S>`, `Min<S>`,
`Max<S>` with `S` primitive (`MPITraits<S>::is_intrinsic`), `get()` returns
`MPI_SUM`, `MPI_PROD`, `MPI_MIN`, `MPI_MAX` and leaves the state as it is (no
registration call), whatever the element type; for these functors with a
non-primitive `S`, and for any other binary function, `get()` is the `get()` of
the registering primary template.  When the functor is taken at the element
type itself (`S` is the element type, as `sum`, `prod`, `min`, `max` do), this
is the choice by the element type. -/
theorem Generic_MPI_Op.resolution_two_branch {T : Type} (sub : Substrate T)
    (is_intrinsic : TypeId → Bool) (Ty : TypeId) (w : World) :
    (∀ S, is_intrinsic S = true →
      Generic_MPI_Op.get sub is_intrinsic Ty (BinaryFunction.plus S) w = (MPI_Op.MPI_SUM, w) ∧
      Generic_MPI_Op.get sub is_intrinsic Ty (BinaryFunction.multiplies S) w =
        (MPI_Op.MPI_PROD, w) ∧
      Generic_MPI_Op.get sub is_intrinsic Ty (BinaryFunction.Min S) w = (MPI_Op.MPI_MIN, w) ∧
      Generic_MPI_Op.get sub is_intrinsic Ty (BinaryFunction.Max S) w = (MPI_Op.MPI_MAX, w)) ∧
    (∀ S, is_intrinsic S = false →
      Generic_MPI_Op.get sub is_intrinsic Ty (BinaryFunction.plus S) w =
        Generic_MPI_Op.getPrimary sub Ty (BinaryFunction.plus S) w ∧
      Generic_MPI_Op.get sub is_intrinsic Ty (BinaryFunction.multiplies S) w =
        Generic_MPI_Op.getPrimary sub Ty (BinaryFunction.multiplies S) w ∧
      Generic_MPI_Op.get sub is_intrinsic Ty (BinaryFunction.Min S) w =
        Generic_MPI_Op.getPrimary sub Ty (BinaryFunction.Min S) w ∧
      Generic_MPI_Op.get sub is_intrinsic Ty (BinaryFunction.Max S) w =
        Generic_MPI_Op.getPrimary sub Ty (BinaryFunction.Max S) w) ∧
    (∀ name, Generic_MPI_Op.get sub is_intrinsic Ty (BinaryFunction.other name) w =
      Generic_MPI_Op.getPrimary sub Ty (BinaryFunction.other name) w) := by
  refine ⟨fun S hS => ?_, fun S hS => ?_, fun name => ?_⟩
  · simp [Generic_MPI_Op.get, Generic_MPI_Op.specialization, hS]
  · simp [Generic_MPI_Op.get, Generic_MPI_Op.specialization, hS]
  · simp [Generic_MPI_Op.get, Generic_MPI_Op.specialization]

/-- C5, amended, at concrete inputs: with `int` primitive and `Aggregate` not,
the four functors at `int` on the element type `int` give the native handles
and make no call; `std::plus<Aggregate>` on the element type `Aggregate` and a
custom functor on `int` register. -/
theorem Generic_MPI_Op.resolution_two_branch_witness :
    Generic_MPI_Op.get (idleSubstrate Int) (fun t => decide (t = "int")) "int"
      (BinaryFunction.plus "int") World.start = (MPI_Op.MPI_SUM, World.start) ∧
    Generic_MPI_Op.get (idleSubstrate Int) (fun t => decide (t = "int")) "int"
      (BinaryFunction.Max "int") World.start = (MPI_Op.MPI_MAX, World.start) ∧
    (Generic_MPI_Op.get (idleSubstrate Int) (fun t => decide (t = "int")) "Aggregate"
      (BinaryFunction.plus "Aggregate") World.start).2.calls =
      [Call.Op_create "Aggregate" (BinaryFunction.plus "Aggregate") true] ∧
    (Generic_MPI_Op.get (idleSubstrate Int) (fun t => decide (t = "int")) "int"
      (BinaryFunction.other "MyOp") World.start).2.calls =
      [Call.Op_create "int" (BinaryFunction.other "MyOp") true] :=
  let h := Generic_MPI_Op.resolution_two_branch (idleSubstrate Int)
    (fun t => decide (t = "int")) "int" World.start
  let g := Generic_MPI_Op.resolution_two_branch (idleSubstrate Int)
    (fun t => decide (t = "int")) "Aggregate" World.start
  ⟨(h.1 "int" (by decide)).1, (h.1 "int" (by decide)).2.2.2,
   by rw [(g.2.1 "Aggregate" (by decide)).1]; rfl,
   by rw [h.2.2 "MyOp"]; rfl⟩

/-! ## Theorems: the operations over the null group, and status codes -/

/-- C6 as stated fails: the Communication constructed over the null group has
size 0, and its `barrier()` invokes the substrate primitive `MPI_Barrier` with
the null handle (one substrate call, not none) and returns what the primitive
returns (here the code 7, not a zero result). -/
theorem null_group_not_a_no_op_counterexample :
    (Communication.construct ((idleSubstrate Int).withStatus 7) MPI_COMM_NULL World.start).1 =
      Except.ok nullCommunication ∧
    nullCommunication.size = 0 ∧
    (Communication.barrier ((idleSubstrate Int).withStatus 7) nullCommunication
      World.start).2.calls = [Call.Barrier MPI_COMM_NULL] ∧
    (Communication.barrier ((idleSubstrate Int).withStatus 7) nullCommunication
      World.start).1 = 7 := by
  refine ⟨rfl, rfl, rfl, rfl⟩

/-- C6, amended: for a Communication constructed over the null group (its
`size()` is 0) no collective operation is guarded by the group being null.
`barrier`, `broadcast`, `gather`, `scatter` and `allgather` each invoke their
substrate primitive exactly once, with the null handle, and `barrier` returns
the primitive's status; `allreduce` (both pointer forms; the array forms of
sum/prod/min/max are the in-place form) and the value-returning `sum`, `prod`,
`min`, `max` resolve the operator handle and then invoke `MPI_Allreduce`
exactly once, with the null handle. -/
theorem null_group_operations_forward {T : Type} (sub : Substrate T)
    (is_intrinsic : TypeId → Bool) (self : Communication) (w0 w : World)
    (hself : (Communication.construct sub MPI_COMM_NULL w0).1 = Except.ok self)
    (Ty : TypeId) (F : BinaryFunction) (a b : List T) (n root : Int) (u v : T) :
    self.size = 0 ∧
    (Communication.barrier sub self w).2.calls = w.calls ++ [Call.Barrier MPI_COMM_NULL] ∧
    (Communication.barrier sub self w).1 = sub.MPI_Barrier MPI_COMM_NULL ∧
    (Communication.broadcast sub self Ty a n root w).2.2.calls =
      w.calls ++ [Call.Bcast n Ty root MPI_COMM_NULL] ∧
    (Communication.gather sub self Ty a b n root w).2.2.calls =
      w.calls ++ [Call.Gather n n Ty root MPI_COMM_NULL] ∧
    (Communication.scatter sub self Ty a b n root w).2.2.calls =
      w.calls ++ [Call.Scatter n n Ty root MPI_COMM_NULL] ∧
    (Communication.allgather sub self Ty a n b w).2.2.calls =
      w.calls ++ [Call.Allgather n n Ty MPI_COMM_NULL] ∧
    (Communication.allreduce sub is_intrinsic self Ty F a b n w).2.2.calls =
      (Generic_MPI_Op.get sub is_intrinsic Ty F w).2.calls ++
        [Call.Allreduce false n Ty (Generic_MPI_Op.get sub is_intrinsic Ty F w).1
          MPI_COMM_NULL] ∧
    (0 ≤ n → (Communication.allreduceInPlace sub is_intrinsic self Ty F u a n w).2.calls =
      (Generic_MPI_Op.get sub is_intrinsic Ty F w).2.calls ++
        [Call.Allreduce false n Ty (Generic_MPI_Op.get sub is_intrinsic Ty F w).1
          MPI_COMM_NULL]) ∧
    (Communication.sum sub is_intrinsic self Ty u v w).2.calls =
      (Generic_MPI_Op.get sub is_intrinsic Ty (BinaryFunction.plus Ty) w).2.calls ++
        [Call.Allreduce false 1 Ty
          (Generic_MPI_Op.get sub is_intrinsic Ty (BinaryFunction.plus Ty) w).1
          MPI_COMM_NULL] ∧
    (Communication.prod sub is_intrinsic self Ty u v w).2.calls =
      (Generic_MPI_Op.get sub is_intrinsic Ty (BinaryFunction.multiplies Ty) w).2.calls ++
        [Call.Allreduce false 1 Ty
          (Generic_MPI_Op.get sub is_intrinsic Ty (BinaryFunction.multiplies Ty) w).1
          MPI_COMM_NULL] ∧
    (Communication.min sub is_intrinsic self Ty u v w).2.calls =
      (Generic_MPI_Op.get sub is_intrinsic Ty (BinaryFunction.Min Ty) w).2.calls ++
        [Call.Allreduce false 1 Ty
          (Generic_MPI_Op.get sub is_intrinsic Ty (BinaryFunction.Min Ty) w).1
          MPI_COMM_NULL] ∧
    (Communication.max sub is_intrinsic self Ty u v w).2.calls =
      (Generic_MPI_Op.get sub is_intrinsic Ty (BinaryFunction.Max Ty) w).2.calls ++
        [Call.Allreduce false 1 Ty
          (Generic_MPI_Op.get sub is_intrinsic Ty (BinaryFunction.Max Ty) w).1
          MPI_COMM_NULL] := by
  have hs : self = nullCommunication := by
    simp only [Communication.construct, ne_eq, not_true_eq_false, if_false,
      Except.ok.injEq] at hself
    exact hself.symm
  subst hs
  refine ⟨rfl, rfl, rfl, rfl, rfl, rfl, rfl, rfl, ?_, rfl, rfl, rfl, rfl⟩
  intro hn
  have : ¬ n < 0 := by omega
  simp [Communication.allreduceInPlace, this, Communication.allreduce, World.record,
    nullCommunication]

/-- C6, amended, at concrete inputs: from the state at process start, with
`int` primitive, the barrier and the sum over the null group each make one
substrate call. -/
theorem null_group_operations_forward_witness :
    (Communication.barrier (idleSubstrate Int) nullCommunication World.start).2.calls =
      [Call.Barrier MPI_COMM_NULL] ∧
    (Communication.sum (idleSubstrate Int) (fun t => decide (t = "int")) nullCommunication
      "int" 0 5 World.start).2.calls =
      [Call.Allreduce false 1 "int" MPI_Op.MPI_SUM MPI_COMM_NULL] :=
  let h := null_group_operations_forward (idleSubstrate Int) (fun t => decide (t = "int"))
    nullCommunication World.start World.start rfl "int" (BinaryFunction.plus "int") [] [] 0 0
    (0 : Int) 5
  ⟨h.2.1, h.2.2.2.2.2.2.2.2.2.1⟩

/-- C7 as stated fails: in a group of two participants holding 5 and 6 whose
all-reduce primitive returns the non-success code 13, the value-returning
`sum` of participant 0 returns 11 and leaves the same call log as when the
primitive returns success: the code 13 does not reach the caller. -/
theorem status_code_swallowed_counterexample :
    (((groupSubstrate [5, 6] 0).withStatus 13).MPI_Allreduce (some [5]) [0] 1 "int"
      MPI_Op.MPI_SUM MPI_COMM_WORLD).1 = 13 ∧
    (13 : Int) ≠ MPI_SUCCESS ∧
    (Communication.sum ((groupSubstrate [5, 6] 0).withStatus 13) (fun t => decide (t = "int"))
      ⟨MPI_COMM_WORLD, 0, 2⟩ "int" 0 5 World.start).1 = 11 ∧
    (Communication.sum ((groupSubstrate [5, 6] 0).withStatus MPI_SUCCESS)
      (fun t => decide (t = "int")) ⟨MPI_COMM_WORLD, 0, 2⟩ "int" 0 5 World.start).1 = 11 ∧
    (Communication.sum ((groupSubstrate [5, 6] 0).withStatus 13) (fun t => decide (t = "int"))
      ⟨MPI_COMM_WORLD, 0, 2⟩ "int" 0 5 World.start).2.calls =
    (Communication.sum ((groupSubstrate [5, 6] 0).withStatus MPI_SUCCESS)
      (fun t => decide (t = "int")) ⟨MPI_COMM_WORLD, 0, 2⟩ "int" 0 5 World.start).2.calls := by
  refine ⟨rfl, by decide, rfl, rfl, rfl⟩

/-- C7, amended: the operations that return `int` deliver the status code of
their primitive unchanged, whatever it is: `send`, `barrier`, `broadcast`,
`gather`, `gatherv`, `scatter`, `scatterv`, `allgather`, `allgatherv`, the
out-of-place `allreduce` and (for a length that is not negative) the in-place
`allreduce`, which the array forms of sum/prod/min/max are.  The operations
that return the data, `recv`, `rrecv`, the value form of `allreduce` and the
value-returning `sum`, `prod`, `min`, `max`, return the same whatever status
code the primitives return. -/
theorem status_code_delivered_by_int_operations {T : Type} (sub : Substrate T)
    (is_intrinsic : TypeId → Bool) (self : Communication) (w : World) (Ty : TypeId)
    (F : BinaryFunction) (a b : List T) (n m root : Int) (cs ds : List Int) (u v : T)
    (st : Option MPI_Status) (code : Int) :
    (Communication.send sub self Ty a m root w).1 =
      sub.MPI_Send a (MPIData.size a) Ty m root self.communicator ∧
    (Communication.barrier sub self w).1 = sub.MPI_Barrier self.communicator ∧
    (Communication.broadcast sub self Ty a n root w).1 =
      (sub.MPI_Bcast a n Ty root self.communicator).1 ∧
    (Communication.gather sub self Ty a b n root w).1 =
      (sub.MPI_Gather a n b n Ty root self.communicator).1 ∧
    (Communication.gatherv sub self Ty a n b cs ds root w).1 =
      (sub.MPI_Gatherv a n b cs ds Ty root self.communicator).1 ∧
    (Communication.scatter sub self Ty a b n root w).1 =
      (sub.MPI_Scatter a n b n Ty root self.communicator).1 ∧
    (Communication.scatterv sub self Ty a cs ds b n root w).1 =
      (sub.MPI_Scatterv a cs ds b n Ty root self.communicator).1 ∧
    (Communication.allgather sub self Ty a n b w).1 =
      (sub.MPI_Allgather a n b n Ty self.communicator).1 ∧
    (Communication.allgatherv sub self Ty a n b cs ds w).1 =
      (sub.MPI_Allgatherv a n b cs ds Ty self.communicator).1 ∧
    (Communication.allreduce sub is_intrinsic self Ty F a b n w).1 =
      (sub.MPI_Allreduce (some a) b n Ty (Generic_MPI_Op.get sub is_intrinsic Ty F w).1
        self.communicator).1 ∧
    (0 ≤ n → ∃ inout,
      (Communication.allreduceInPlace sub is_intrinsic self Ty F u a n w).1 =
        Except.ok ((sub.MPI_Allreduce (some a) (List.replicate n.toNat u) n Ty
          (Generic_MPI_Op.get sub is_intrinsic Ty F w).1 self.communicator).1, inout)) ∧
    ((Communication.send (sub.withStatus code) self Ty a m root w).1 = code ∧
     (Communication.barrier (sub.withStatus code) self w).1 = code ∧
     (Communication.allreduce (sub.withStatus code) is_intrinsic self Ty F a b n w).1 = code) ∧
    (Communication.recv (sub.withStatus code) self Ty a m root st w =
      Communication.recv sub self Ty a m root st w) ∧
    (Communication.rrecv (sub.withStatus code) self Ty u a m root st w =
      Communication.rrecv sub self Ty u a m root st w) ∧
    ((Communication.allreduceValue (sub.withStatus code) is_intrinsic self Ty F a w).1 =
      (Communication.allreduceValue sub is_intrinsic self Ty F a w).1) ∧
    ((Communication.sum (sub.withStatus code) is_intrinsic self Ty u v w).1 =
      (Communication.sum sub is_intrinsic self Ty u v w).1) ∧
    ((Communication.prod (sub.withStatus code) is_intrinsic self Ty u v w).1 =
      (Communication.prod sub is_intrinsic self Ty u v w).1) ∧
    ((Communication.min (sub.withStatus code) is_intrinsic self Ty u v w).1 =
      (Communication.min sub is_intrinsic self Ty u v w).1) ∧
    ((Communication.max (sub.withStatus code) is_intrinsic self Ty u v w).1 =
      (Communication.max sub is_intrinsic self Ty u v w).1) := by
  have hget : ∀ G, (Generic_MPI_Op.get (sub.withStatus code) is_intrinsic Ty G w).1 =
      (Generic_MPI_Op.get sub is_intrinsic Ty G w).1 := by
    intro G
    unfold Generic_MPI_Op.get Generic_MPI_Op.getPrimary
    cases Generic_MPI_Op.specialization is_intrinsic Ty G with
    | some o => rfl
    | none => cases hop : w.op Ty G <;> simp [Substrate.withStatus]
  have hval : ∀ G, (Communication.reduceValue (sub.withStatus code) is_intrinsic self Ty G u v
      w).1 = (Communication.reduceValue sub is_intrinsic self Ty G u v w).1 := by
    intro G
    unfold Communication.reduceValue Communication.allreduce
    simp only [hget]
    rfl
  refine ⟨rfl, rfl, rfl, rfl, rfl, rfl, rfl, rfl, rfl, rfl, ?_, ⟨rfl, rfl, rfl⟩, rfl, rfl, ?_,
    hval _, hval _, hval _, hval _⟩
  · intro hn
    have : ¬ n < 0 := by omega
    simp [Communication.allreduceInPlace, this, Communication.allreduce]
  · unfold Communication.allreduceValue
    simp only [hget]
    rfl

/-- C7, amended, at concrete inputs: the in-place sum of a two-element buffer
over a substrate whose primitives return the code 13 returns 13. -/
theorem status_code_delivered_by_int_operations_witness :
    ∃ inout, (Communication.sumArray ((idleSubstrate Int).withStatus 13)
        (fun t => decide (t = "int")) ⟨MPI_COMM_WORLD, 0, 1⟩ "int" 0 [5, 6] 2 World.start).1 =
      Except.ok (13, inout) :=
  (status_code_delivered_by_int_operations ((idleSubstrate Int).withStatus 13)
    (fun t => decide (t = "int")) ⟨MPI_COMM_WORLD, 0, 1⟩ World.start "int"
    (BinaryFunction.plus "int") [5, 6] [] 2 0 0 [] [] (0 : Int) 0 none 0).2.2.2.2.2.2.2.2.2.2.1
    (by decide)

/-! ## Theorems: non-blocking gather and scatter -/

/-- C8, the code at failing inputs.  At the root `me = root = 0` of a group of
two with a send buffer of two elements, the blocking `gather` passes send
count 2 and receive count 2, and `igather` passes send count 2 and receive
count 1, where the sibling `iallgather` passes receive count 2; at the root
`me = root = 1` `igather` passes receive count 0; at the non-root rank 2 with
root 1 `igather` passes receive count 1. -/
theorem igather_receive_count_evaluated :
    (Communication.gather (idleSubstrate Int) ⟨MPI_COMM_WORLD, 0, 2⟩ "int" [7, 8] [0, 0, 0, 0]
      2 0 World.start).2.2.calls = [Call.Gather 2 2 "int" 0 MPI_COMM_WORLD] ∧
    (Communication.igather (idleSubstrate Int) false ⟨MPI_COMM_WORLD, 0, 2⟩ [7, 8] [0, 0, 0, 0]
      0 World.start).2.calls = [Call.Igather 2 1 0 MPI_COMM_WORLD] ∧
    (Communication.iallgather (idleSubstrate Int) false ⟨MPI_COMM_WORLD, 0, 2⟩ [7, 8]
      [0, 0, 0, 0] World.start).2.calls = [Call.Iallgather 2 2 MPI_COMM_WORLD] ∧
    (Communication.igather (idleSubstrate Int) false ⟨MPI_COMM_WORLD, 1, 2⟩ [7, 8] [0, 0, 0, 0]
      1 World.start).2.calls = [Call.Igather 2 0 1 MPI_COMM_WORLD] ∧
    (Communication.igather (idleSubstrate Int) false ⟨MPI_COMM_WORLD, 2, 3⟩ [7, 8] []
      1 World.start).2.calls = [Call.Igather 2 1 1 MPI_COMM_WORLD] := by
  refine ⟨rfl, rfl, rfl, rfl, rfl⟩

/-- C9, the code at failing inputs.  At the root `me = root = 0` of a group of
two with a send buffer of four elements and a receive buffer of two, the
blocking `scatter` with length 2 passes the counts 2 and 2, and `iscatter`
passes send count 1 and receive count 2; at the root `me = root = 1`
`iscatter` passes send count 0; at the non-root rank 4 with root 1 `iscatter`
passes send count 1. -/
theorem iscatter_send_count_evaluated :
    (Communication.scatter (idleSubstrate Int) ⟨MPI_COMM_WORLD, 0, 2⟩ "int" [7, 8, 9, 10]
      [0, 0] 2 0 World.start).2.2.calls = [Call.Scatter 2 2 "int" 0 MPI_COMM_WORLD] ∧
    (Communication.iscatter (idleSubstrate Int) ⟨MPI_COMM_WORLD, 0, 2⟩ [7, 8, 9, 10] [0, 0]
      0 World.start).2.calls = [Call.Iscatter 1 2 0 MPI_COMM_WORLD] ∧
    (Communication.iscatter (idleSubstrate Int) ⟨MPI_COMM_WORLD, 1, 2⟩ [7, 8, 9, 10] [0, 0]
      1 World.start).2.calls = [Call.Iscatter 0 2 1 MPI_COMM_WORLD] ∧
    (Communication.iscatter (idleSubstrate Int) ⟨MPI_COMM_WORLD, 4, 5⟩ [7, 8, 9, 10] [0, 0]
      1 World.start).2.calls = [Call.Iscatter 1 2 1 MPI_COMM_WORLD] := by
  refine ⟨rfl, rfl, rfl, rfl⟩

/-! ## Theorems: the all-reduce result in a group -/

/-- Putting a participant's own one-element buffer at its rank changes nothing. -/
theorem map_singleton_set_self (locals : List Int) (i : Nat) (hi : i < locals.length) :
    (locals.map (fun v => [v])).set i [locals[i]] = locals.map (fun v => [v]) := by
  apply List.ext_getElem?
  intro j
  by_cases hj : i = j
  · subst hj
    simp [List.getElem?_set_self, hi, List.getElem?_eq_getElem]
  · simp [List.getElem?_set_ne hj]

/-- A value of `int` is its own wrapped value. -/
theorem intWrap_of_range (x : Int) (h : INT_MIN ≤ x ∧ x ≤ INT_MAX) : intWrap x = x := by
  simp only [INT_MIN, INT_MAX] at h
  simp only [intWrap]
  omega

/-- Wrapping an addend first does not change the wrapped sum. -/
theorem intWrap_add_intWrap (a b : Int) : intWrap (a + intWrap b) = intWrap (a + b) := by
  simp only [intWrap]
  omega

/-- With an operator that adds in `int`, the all-reduce of one-element buffers
of `int` values is their sum, wrapped. -/
theorem reduceAll_sum (op : MPI_Op)
    (hop : ∀ a b : Int, reduceStep op 1 [a] [b] = some [intWrap (a + b)]) (v : Int)
    (vs : List Int) (hrange : ∀ x ∈ v :: vs, INT_MIN ≤ x ∧ x ≤ INT_MAX) :
    reduceAll op 1 ((v :: vs).map (fun x => [x])) = some [intWrap (v :: vs).sum] := by
  induction vs generalizing v with
  | nil => simp [reduceAll, intWrap_of_range v (hrange v (List.mem_cons_self _ _))]
  | cons x xs ih =>
    have h := ih x (fun y hy => hrange y (List.mem_cons_of_mem _ hy))
    simp only [List.map_cons] at h ⊢
    simp only [reduceAll, h, Option.some_bind, hop, intWrap_add_intWrap, List.sum_cons]

/-- With an operator that takes the larger, the all-reduce of one-element
buffers is one of the values and at least every value. -/
theorem reduceAll_max (op : MPI_Op)
    (hop : ∀ a b : Int, reduceStep op 1 [a] [b] = some [max a b]) (v : Int) (vs : List Int) :
    ∃ c, reduceAll op 1 ((v :: vs).map (fun x => [x])) = some [c] ∧ c ∈ v :: vs ∧
      ∀ x ∈ v :: vs, x ≤ c := by
  induction vs generalizing v with
  | nil => exact ⟨v, by simp [reduceAll]⟩
  | cons x xs ih =>
    obtain ⟨c, hc, hmem, hle⟩ := ih x
    simp only [List.map_cons] at hc ⊢
    refine ⟨max v c, by simp [reduceAll, hc, hop], ?_, ?_⟩
    · rcases le_total v c with h | h
      · rw [max_eq_right h]; exact List.mem_cons_of_mem _ hmem
      · rw [max_eq_left h]; exact List.mem_cons_self _ _
    · intro y hy
      rcases List.mem_cons.mp hy with rfl | hy
      · exact le_max_left _ _
      · exact le_trans (hle y hy) (le_max_right _ _)

/-- The native sum handle adds in `int`. -/
theorem reduceStep_sum_native (a b : Int) :
    reduceStep MPI_Op.MPI_SUM 1 [a] [b] = some [intWrap (a + b)] := by
  simp [reduceStep, stdCopy]

/-- The callback registered for `std::plus` adds in `int`. -/
theorem reduceStep_sum_created (a b : Int) :
    reduceStep (MPI_Op.created 0) 1 [a] [b] = some [intWrap (a + b)] := by
  simp [reduceStep, Generic_MPI_Op.operation, Generic_MPI_Op.operationLoop]

/-- The native maximum handle takes the larger. -/
theorem reduceStep_max_native (a b : Int) : reduceStep MPI_Op.MPI_MAX 1 [a] [b] = some [max a b] := by
  simp [reduceStep, stdCopy]

/-- The callback registered for `Max` takes the larger. -/
theorem reduceStep_max_created (a b : Int) :
    reduceStep (MPI_Op.created 3) 1 [a] [b] = some [max a b] := by
  simp [reduceStep, Generic_MPI_Op.operation, Generic_MPI_Op.operationLoop, max_def]

/-- The value-returning reduction of participant `i` returns what the
all-reduce of the group's buffers yields. -/
theorem reduceValue_group (locals : List Int) (i : Nat) (hi : i < locals.length)
    (is_intrinsic : TypeId → Bool) (self : Communication) (F : BinaryFunction) (u r : Int)
    (calls : List Call)
    (hr : reduceAll (Generic_MPI_Op.get (groupSubstrate locals i) is_intrinsic "int" F
      ⟨calls, fun _ _ => none⟩).1 1 (locals.map (fun v => [v])) = some [r]) :
    (Communication.reduceValue (groupSubstrate locals i) is_intrinsic self "int" F u locals[i]
      ⟨calls, fun _ _ => none⟩).1 = r := by
  unfold Communication.reduceValue Communication.allreduce
  simp only [groupSubstrate, Option.getD_some, map_singleton_set_self locals i hi] at hr ⊢
  rw [hr]
  simp [stdCopy]

/-- C10 as stated fails: in a group of two participants holding the `int`
values 2147483647 and 1, whose mathematical sum 2147483648 is not a value of
`int`, `sum` at participant 0 returns -2147483648, with the native handle
(`int` primitive) as with the registered callback (`int` not primitive). -/
theorem allreduce_sum_overflow_counterexample :
    (∀ v ∈ [(2147483647 : Int), 1], INT_MIN ≤ v ∧ v ≤ INT_MAX) ∧
    [(2147483647 : Int), 1].sum = 2147483648 ∧
    (Communication.sum (groupSubstrate [2147483647, 1] 0) (fun t => decide (t = "int"))
      ⟨MPI_COMM_WORLD, 0, 2⟩ "int" 0 2147483647 World.start).1 = -2147483648 ∧
    (Communication.sum (groupSubstrate [2147483647, 1] 0) (fun _ => false)
      ⟨MPI_COMM_WORLD, 0, 2⟩ "int" 0 2147483647 World.start).1 = -2147483648 := by
  refine ⟨by decide, by decide, by rfl, ?_⟩
  have hstep : reduceStep (MPI_Op.created 0) 1 [2147483647] [1] = some [-2147483648] := by
    rw [reduceStep_sum_created]
    rfl
  exact reduceValue_group [2147483647, 1] 0 (by decide) (fun _ => false)
    ⟨MPI_COMM_WORLD, 0, 2⟩ (BinaryFunction.plus "int") 0 (-2147483648) [] hstep

/-- C10, amended: all-reduce result.  In a group of `N >= 1` participants where
participant `i` holds the `int` value `locals[i]`, with the substrate's
all-reduce combining the participants' buffers pairwise with the resolved
operator (the native handle when `int` is primitive, else the registered
callback), `sum` called by participant `i` with its value returns the sum of
all values wrapped into the range of `int`, which is the sum of all values
whenever that sum is a value of `int`; `max` returns the maximum of all values
(one of the values, and at least each).  This holds at every participant `i`,
from any call log with no operator registered yet.  Concretely, for `N = 4`
and values `0, 1, 2, 3`, `sum` returns 6 and `max` returns 3 at each of the
four participants. -/
theorem allreduce_sum_max_of_int_values (locals : List Int) (i : Nat)
    (is_intrinsic : TypeId → Bool) (self : Communication) (u : Int) (calls : List Call)
    (hi : i < locals.length) (hrange : ∀ v ∈ locals, INT_MIN ≤ v ∧ v ≤ INT_MAX) :
    (Communication.sum (groupSubstrate locals i) is_intrinsic self "int" u locals[i]
      ⟨calls, fun _ _ => none⟩).1 = intWrap locals.sum ∧
    ((INT_MIN ≤ locals.sum ∧ locals.sum ≤ INT_MAX) →
      (Communication.sum (groupSubstrate locals i) is_intrinsic self "int" u locals[i]
        ⟨calls, fun _ _ => none⟩).1 = locals.sum) ∧
    ((Communication.max (groupSubstrate locals i) is_intrinsic self "int" u locals[i]
      ⟨calls, fun _ _ => none⟩).1 ∈ locals ∧
     ∀ v ∈ locals, v ≤ (Communication.max (groupSubstrate locals i) is_intrinsic self "int" u
      locals[i] ⟨calls, fun _ _ => none⟩).1) ∧
    (∀ j : Nat, j < 4 →
      (Communication.sum (groupSubstrate [0, 1, 2, 3] j) is_intrinsic self "int" u (j : Int)
        ⟨calls, fun _ _ => none⟩).1 = 6 ∧
      (Communication.max (groupSubstrate [0, 1, 2, 3] j) is_intrinsic self "int" u (j : Int)
        ⟨calls, fun _ _ => none⟩).1 = 3) := by
  have hsum : ∀ (ls : List Int) (k : Nat) (hk : k < ls.length),
      (∀ v ∈ ls, INT_MIN ≤ v ∧ v ≤ INT_MAX) →
      (Communication.sum (groupSubstrate ls k) is_intrinsic self "int" u ls[k]
        ⟨calls, fun _ _ => none⟩).1 = intWrap ls.sum := by
    intro ls k hk hr
    obtain ⟨v, vs, rfl⟩ : ∃ v vs, ls = v :: vs := by
      cases ls with
      | nil => simp at hk
      | cons v vs => exact ⟨v, vs, rfl⟩
    apply reduceValue_group (v :: vs) k hk
    by_cases hint : is_intrinsic "int" = true
    · simpa [Generic_MPI_Op.get, Generic_MPI_Op.specialization, hint] using
        reduceAll_sum MPI_Op.MPI_SUM reduceStep_sum_native v vs hr
    · simpa [Generic_MPI_Op.get, Generic_MPI_Op.specialization, hint,
        Generic_MPI_Op.getPrimary, groupSubstrate, groupHandle] using
        reduceAll_sum (MPI_Op.created 0) reduceStep_sum_created v vs hr
  have hmax : ∀ (ls : List Int) (k : Nat) (hk : k < ls.length),
      (Communication.max (groupSubstrate ls k) is_intrinsic self "int" u ls[k]
        ⟨calls, fun _ _ => none⟩).1 ∈ ls ∧
      ∀ v ∈ ls, v ≤ (Communication.max (groupSubstrate ls k) is_intrinsic self "int" u ls[k]
        ⟨calls, fun _ _ => none⟩).1 := by
    intro ls k hk
    obtain ⟨v, vs, rfl⟩ : ∃ v vs, ls = v :: vs := by
      cases ls with
      | nil => simp at hk
      | cons v vs => exact ⟨v, vs, rfl⟩
    by_cases hint : is_intrinsic "int" = true
    · obtain ⟨c, hc, hmem, hle⟩ := reduceAll_max MPI_Op.MPI_MAX reduceStep_max_native v vs
      have hval := reduceValue_group (v :: vs) k hk is_intrinsic self
        (BinaryFunction.Max "int") u c calls
        (by simpa [Generic_MPI_Op.get, Generic_MPI_Op.specialization, hint] using hc)
      rw [Communication.max, hval]
      exact ⟨hmem, hle⟩
    · obtain ⟨c, hc, hmem, hle⟩ :=
        reduceAll_max (MPI_Op.created 3) reduceStep_max_created v vs
      have hval := reduceValue_group (v :: vs) k hk is_intrinsic self
        (BinaryFunction.Max "int") u c calls
        (by simpa [Generic_MPI_Op.get, Generic_MPI_Op.specialization, hint,
          Generic_MPI_Op.getPrimary, groupSubstrate, groupHandle] using hc)
      rw [Communication.max, hval]
      exact ⟨hmem, hle⟩
  refine ⟨hsum locals i hi hrange, ?_, hmax locals i hi, ?_⟩
  · intro hfit
    rw [hsum locals i hi hrange, intWrap_of_range _ hfit]
  intro j hj
  have h4 : j < [(0 : Int), 1, 2, 3].length := by simpa using hj
  have hs := hsum [0, 1, 2, 3] j h4 (by decide)
  have hm := hmax [0, 1, 2, 3] j h4
  have hval : [(0 : Int), 1, 2, 3][j] = (j : Int) := by
    interval_cases j <;> rfl
  rw [hval] at hs hm
  refine ⟨by rw [hs]; decide, ?_⟩
  obtain ⟨hmem, hle⟩ := hm
  have h3 := hle 3 (by simp)
  simp only [List.mem_cons, List.mem_singleton, List.not_mem_nil, or_false] at hmem
  omega

/-- C10, amended, at concrete inputs: participant 2 of the group holding 0, 1,
2, 3, with `int` primitive, from the state at process start. -/
theorem allreduce_sum_max_of_int_values_witness :
    (Communication.sum (groupSubstrate [0, 1, 2, 3] 2) (fun t => decide (t = "int"))
      ⟨MPI_COMM_WORLD, 2, 4⟩ "int" 0 2 World.start).1 = 6 ∧
    (Communication.max (groupSubstrate [0, 1, 2, 3] 2) (fun t => decide (t = "int"))
      ⟨MPI_COMM_WORLD, 2, 4⟩ "int" 0 2 World.start).1 = 3 :=
  (allreduce_sum_max_of_int_values [0, 1, 2, 3] 2 (fun t => decide (t = "int"))
    ⟨MPI_COMM_WORLD, 2, 4⟩ 0 [] (by decide) (by decide)).2.2.2 2 (by decide)

/-! ## Theorems: receive with unknown length -/

/-- The adapter's `resize` to a count that is not negative yields exactly that
many elements. -/
theorem MPIData.resize_length {T : Type} (zero : T) (data : List T) (n : Int) (hn : 0 ≤ n) :
    MPIData.size (MPIData.resize zero data n) = n := by
  simp only [MPIData.size, MPIData.resize, List.length_append, List.length_take,
    List.length_replicate]
  omega

/-- C11: receive with unknown length.  For a resizable buffer of any initial
element count and an incoming message whose probed element count is `s` (not
negative), `rrecv` calls the probe, then the count query, then one receive
with count `s`, in this order; the buffer it hands to the receive has been
resized to exactly `s` elements; what it returns is that buffer as the receive
primitive filled it from the probed message, and, the primitive writing in
place, it has `s` elements.  For a buffer type whose adapter has `static_size`
(a fixed-size type) the instantiation is rejected at compile time. -/
theorem rrecv_probe_resize_receive {T : Type} (sub : Substrate T) (self : Communication)
    (Ty : TypeId) (zero : T) (data : List T) (source_rank tag : Int)
    (status : Option MPI_Status) (w : World) (s : Int) (hs : 0 ≤ s)
    (hprobe : (sub.MPI_Get_count
      (sub.MPI_Mprobe source_rank tag self.communicator).2.2 Ty).2 = s)
    (hwrite : ∀ buf n ty msg, (sub.MPI_Mrecv buf n ty msg).2.1.length = buf.length) :
    (Communication.rrecv sub self Ty zero data source_rank tag status w).2.2.calls =
      w.calls ++ [Call.Mprobe source_rank tag self.communicator, Call.Get_count Ty,
        Call.Mrecv s Ty] ∧
    MPIData.size (MPIData.resize zero data s) = s ∧
    (Communication.rrecv sub self Ty zero data source_rank tag status w).1 =
      (sub.MPI_Mrecv (MPIData.resize zero data s) s Ty
        (sub.MPI_Mprobe source_rank tag self.communicator).2.1).2.1 ∧
    MPIData.size (Communication.rrecv sub self Ty zero data source_rank tag status w).1 = s ∧
    Communication.rrecvInstantiated true sub self Ty zero data source_rank tag status w =
      Except.error CompileError.rrecv_static_size ∧
    Communication.rrecvInstantiated false sub self Ty zero data source_rank tag status w =
      Except.ok (Communication.rrecv sub self Ty zero data source_rank tag status w) := by
  have hsize := MPIData.resize_length zero data s hs
  refine ⟨?_, hsize, ?_, ?_, rfl, rfl⟩
  · simp [Communication.rrecv, World.record, hprobe, hsize]
  · simp [Communication.rrecv, hprobe, hsize]
  · simp only [Communication.rrecv, hprobe, MPIData.size, hwrite]
    exact hsize

/-- C11, at concrete inputs: a buffer of one element and a probed message of
three elements, over a substrate whose receive leaves the buffer as it is. -/
theorem rrecv_probe_resize_receive_witness :
    (Communication.rrecv
      { idleSubstrate Int with
        MPI_Mprobe := fun source tag _ => (MPI_SUCCESS, ⟨0⟩, ⟨source, tag, MPI_SUCCESS, 3⟩) }
      ⟨MPI_COMM_WORLD, 0, 2⟩ "int" 0 [7] 1 5 none World.start).2.2.calls =
      [Call.Mprobe 1 5 MPI_COMM_WORLD, Call.Get_count "int", Call.Mrecv 3 "int"] ∧
    (Communication.rrecv
      { idleSubstrate Int with
        MPI_Mprobe := fun source tag _ => (MPI_SUCCESS, ⟨0⟩, ⟨source, tag, MPI_SUCCESS, 3⟩) }
      ⟨MPI_COMM_WORLD, 0, 2⟩ "int" 0 [7] 1 5 none World.start).1 = [7, 0, 0] :=
  let h := rrecv_probe_resize_receive
      { idleSubstrate Int with
        MPI_Mprobe := fun source tag _ => (MPI_SUCCESS, ⟨0⟩, ⟨source, tag, MPI_SUCCESS, 3⟩) }
      ⟨MPI_COMM_WORLD, 0, 2⟩ "int" 0 [7] 1 5 none World.start 3 (by decide) rfl
      (fun _ _ _ _ => rfl)
  ⟨h.1, rfl⟩

/-! ## Theorems: in-place and out-of-place all-reduce -/

/-- C13: in-place all-reduce equals out-of-place all-reduce.  For `len >= 0`
and a buffer `inout` of `len` elements, `allreduce<BinaryFunction>(inout, len)`
returns the status code of the out-of-place
`allreduce<BinaryFunction>(in, out, len)` it makes with `in` holding the
original contents of `inout`, and leaves in `inout` exactly the `len` elements
that this call wrote to `out`; both make the same substrate calls.  When the
status and the `len` elements the substrate's all-reduce writes do not depend
on what a receive buffer of `len` elements held before, the same holds against
the out-of-place call with any buffer `out0` of `len` elements. -/
theorem allreduce_in_place_matches_out_of_place {T : Type} (sub : Substrate T)
    (is_intrinsic : TypeId → Bool) (self : Communication) (Ty : TypeId) (F : BinaryFunction)
    (u : T) (inout out0 : List T) (len : Int) (w : World)
    (hlen : 0 ≤ len) (hsize : (inout.length : Int) = len) :
    (Communication.allreduceInPlace sub is_intrinsic self Ty F u inout len w).1 =
      Except.ok
        ((Communication.allreduce sub is_intrinsic self Ty F inout
          (List.replicate len.toNat u) len w).1,
         (Communication.allreduce sub is_intrinsic self Ty F inout
          (List.replicate len.toNat u) len w).2.1.take len.toNat) ∧
    (Communication.allreduceInPlace sub is_intrinsic self Ty F u inout len w).2.calls =
      (Communication.allreduce sub is_intrinsic self Ty F inout
        (List.replicate len.toNat u) len w).2.2.calls ∧
    ((∀ o1 o2 : List T, ∀ op : MPI_Op, o1.length = len.toNat → o2.length = len.toNat →
        (sub.MPI_Allreduce (some inout) o1 len Ty op self.communicator).1 =
          (sub.MPI_Allreduce (some inout) o2 len Ty op self.communicator).1 ∧
        (sub.MPI_Allreduce (some inout) o1 len Ty op self.communicator).2.take len.toNat =
          (sub.MPI_Allreduce (some inout) o2 len Ty op self.communicator).2.take len.toNat) →
      out0.length = len.toNat →
      (Communication.allreduceInPlace sub is_intrinsic self Ty F u inout len w).1 =
        Except.ok
          ((Communication.allreduce sub is_intrinsic self Ty F inout out0 len w).1,
           (Communication.allreduce sub is_intrinsic self Ty F inout out0 len
            w).2.1.take len.toNat)) := by
  have hneg : ¬ len < 0 := by omega
  have hdrop : inout.drop len.toNat = [] := by
    apply List.drop_eq_nil_of_le
    omega
  have hmain : (Communication.allreduceInPlace sub is_intrinsic self Ty F u inout len w).1 =
      Except.ok
        ((Communication.allreduce sub is_intrinsic self Ty F inout
          (List.replicate len.toNat u) len w).1,
         (Communication.allreduce sub is_intrinsic self Ty F inout
          (List.replicate len.toNat u) len w).2.1.take len.toNat) := by
    simp [Communication.allreduceInPlace, hneg, stdCopy, hdrop]
  refine ⟨hmain, ?_, ?_⟩
  · simp [Communication.allreduceInPlace, hneg]
  · intro hsub hout
    have h := hsub (List.replicate len.toNat u) out0
      (Generic_MPI_Op.get sub is_intrinsic Ty F w).1 (by simp) hout
    rw [hmain]
    simp only [Communication.allreduce]
    rw [h.1, h.2]

/-- C13, at concrete inputs: participant 0 of a group of two holding 5 and 6,
in-place and out-of-place sum of one element. -/
theorem allreduce_in_place_matches_out_of_place_witness :
    (Communication.allreduceInPlace (groupSubstrate [5, 6] 0) (fun t => decide (t = "int"))
        ⟨MPI_COMM_WORLD, 0, 2⟩ "int" (BinaryFunction.plus "int") 0 [5] 1 World.start).1 =
      Except.ok (MPI_SUCCESS, [11]) ∧
    (Communication.allreduce (groupSubstrate [5, 6] 0) (fun t => decide (t = "int"))
        ⟨MPI_COMM_WORLD, 0, 2⟩ "int" (BinaryFunction.plus "int") [5] [0] 1 World.start).1 =
      MPI_SUCCESS ∧
    (Communication.allreduce (groupSubstrate [5, 6] 0) (fun t => decide (t = "int"))
        ⟨MPI_COMM_WORLD, 0, 2⟩ "int" (BinaryFunction.plus "int") [5] [0] 1 World.start).2.1 =
      [11] :=
  let h := (allreduce_in_place_matches_out_of_place (groupSubstrate [5, 6] 0)
    (fun t => decide (t = "int")) ⟨MPI_COMM_WORLD, 0, 2⟩ "int" (BinaryFunction.plus "int") 0
    [5] [0] 1 World.start (by decide) (by decide)).1
  ⟨h, rfl, rfl⟩

/-! ## Theorems: `FirstPredicateIndex` and `FirstTypeIndex` -/

/-- What `FirstPredicateIndex` with the default `size` yields from `start` on. -/
theorem FirstPredicateIndex_cases (Tuple : List TypeId) (Predicate : TypeId → Bool) :
    ∀ (k start : Nat), Tuple.length - start = k → start ≤ Tuple.length →
      (∃ value, FirstPredicateIndex Tuple Predicate start Tuple.length = Except.ok value ∧
        start ≤ value ∧ (∃ U, Tuple[value]? = some U ∧ Predicate U = true) ∧
        ∀ j U, start ≤ j → j < value → Tuple[j]? = some U → Predicate U = false) ∨
      (FirstPredicateIndex Tuple Predicate start Tuple.length =
          Except.error CompileError.none_matches ∧
        ∀ j U, start ≤ j → Tuple[j]? = some U → Predicate U = false) := by
  intro k
  induction k with
  | zero =>
    intro start hk hle
    have hs : start = Tuple.length := by omega
    right
    refine ⟨?_, ?_⟩
    · rw [FirstPredicateIndex]; simp [hs]
    · intro j U hj hU
      have := (List.getElem?_eq_some.mp hU).1
      omega
  | succ k ih =>
    intro start hk hle
    have hlt : start < Tuple.length := by omega
    have hne : start ≠ Tuple.length := by omega
    have hget : Tuple[start]? = some Tuple[start] := List.getElem?_eq_getElem hlt
    by_cases hP : Predicate Tuple[start] = true
    · left
      refine ⟨start, ?_, le_refl _, ⟨Tuple[start], hget, hP⟩, ?_⟩
      · rw [FirstPredicateIndex]
        simp [hne, hlt, hP]
      · intro j U h1 h2; omega
    · have hstep : FirstPredicateIndex Tuple Predicate start Tuple.length =
          FirstPredicateIndex Tuple Predicate (start + 1) Tuple.length := by
        conv_lhs => rw [FirstPredicateIndex]
        simp only [hne, if_false, hlt, dite_true, hP]
        cases FirstPredicateIndex Tuple Predicate (start + 1) Tuple.length <;> simp
      have hPf : Predicate Tuple[start] = false := by simpa using hP
      rcases ih (start + 1) (by omega) (by omega) with
        ⟨value, hv, hsv, hacc, hrej⟩ | ⟨herr, hrej⟩
      · left
        refine ⟨value, by rw [hstep, hv], by omega, hacc, ?_⟩
        intro j U h1 h2 hU
        by_cases hj : j = start
        · subst hj
          rw [hget] at hU
          cases hU
          exact hPf
        · exact hrej j U (by omega) h2 hU
      · right
        refine ⟨by rw [hstep, herr], ?_⟩
        intro j U h1 hU
        by_cases hj : j = start
        · subst hj
          rw [hget] at hU
          cases hU
          exact hPf
        · exact hrej j U (by omega) hU

/-- C12: `FirstPredicateIndex` finds the first accepted element.  For a tuple of
`n` element types, a predicate and `start <= n` (the `size` parameter left at
its default `n`): if some element at an index `>= start` is accepted, `value`
is the least such index (the element at `value` is accepted, every element at
an index in `[start, value)` is rejected); if no element at an index `>= start`
is accepted, there is no `value`: the assertion "None of the tuple element
types matches the predicate!" fails.  `FirstTypeIndex` is the instance whose
predicate is type equality with `T`, so a `value` it yields is an index of
`T`. -/
theorem FirstPredicateIndex_first_accepted (Tuple : List TypeId) (Predicate : TypeId → Bool)
    (start : Nat) (T : TypeId) (hstart : start ≤ Tuple.length) :
    ((∃ k U, start ≤ k ∧ Tuple[k]? = some U ∧ Predicate U = true) →
      ∃ value, FirstPredicateIndex Tuple Predicate start Tuple.length = Except.ok value ∧
        start ≤ value ∧ (∃ U, Tuple[value]? = some U ∧ Predicate U = true) ∧
        ∀ j U, start ≤ j → j < value → Tuple[j]? = some U → Predicate U = false) ∧
    ((∀ k U, start ≤ k → Tuple[k]? = some U → Predicate U = false) →
      FirstPredicateIndex Tuple Predicate start Tuple.length =
        Except.error CompileError.none_matches) ∧
    FirstTypeIndex Tuple T start =
      FirstPredicateIndex Tuple (fun U => decide (T = U)) start Tuple.length ∧
    (∀ value, FirstTypeIndex Tuple T start = Except.ok value → Tuple[value]? = some T) := by
  refine ⟨?_, ?_, rfl, ?_⟩
  · rintro ⟨k, U, hk, hU, hP⟩
    rcases FirstPredicateIndex_cases Tuple Predicate (Tuple.length - start) start rfl hstart with
      h | ⟨_, hrej⟩
    · exact h
    · rw [hrej k U hk hU] at hP
      cases hP
  · intro hall
    rcases FirstPredicateIndex_cases Tuple Predicate (Tuple.length - start) start rfl hstart with
      ⟨value, _, hsv, ⟨U, hU, hP⟩, _⟩ | ⟨herr, _⟩
    · rw [hall value U hsv hU] at hP
      cases hP
    · exact herr
  · intro value hv
    rcases FirstPredicateIndex_cases Tuple (fun U => decide (T = U)) (Tuple.length - start)
      start rfl hstart with ⟨value1, hv1, _, ⟨U, hU, hP⟩, _⟩ | ⟨herr, _⟩
    · rw [FirstTypeIndex, hv1] at hv
      cases hv
      have hTU : T = U := by simpa using hP
      rw [hTU]
      exact hU
    · rw [FirstTypeIndex, herr] at hv
      cases hv

/-- C12, at concrete inputs: in `tuple<int, double, char, double>` the first
`double` from index 2 on is at index 3, and there is no `long`. -/
theorem FirstPredicateIndex_first_accepted_witness :
    (∃ value, FirstPredicateIndex ["int", "double", "char", "double"]
        (fun U => decide (U = "double")) 2 4 = Except.ok value ∧
      2 ≤ value ∧
      (∃ U, ["int", "double", "char", "double"][value]? = some U ∧
        (fun U => decide (U = "double")) U = true) ∧
      ∀ j U, 2 ≤ j → j < value → ["int", "double", "char", "double"][j]? = some U →
        (fun U => decide (U = "double")) U = false) ∧
    FirstPredicateIndex ["int", "double", "char", "double"]
      (fun U => decide (U = "double")) 2 4 = Except.ok 3 ∧
    FirstTypeIndex ["int", "double", "char", "double"] "long" 0 =
      Except.error CompileError.none_matches :=
  ⟨(FirstPredicateIndex_first_accepted ["int", "double", "char", "double"]
      (fun U => decide (U = "double")) 2 "long" (by decide)).1
      ⟨3, "double", by decide, by decide, by decide⟩,
   by simp [FirstPredicateIndex],
   by simp [FirstTypeIndex, FirstPredicateIndex]⟩

/-! ## Theorems: the two definitions of `IntegralConstantTuple` -/

/-- The all-unused specialisation of `Create` is the seed. -/
theorem IntegralConstantTuple.Create_unused {T : Type} [DecidableEq T] (unused : T)
    (Seed : List (integral_constant T)) :
    IntegralConstantTuple.Create unused unused unused unused unused unused unused unused unused
      unused Seed = Seed := by
  rw [IntegralConstantTuple.Create]
  simp

/-- The primary template of `Create`, entered because the first argument is not
`unused`, pushes it to the back of the seed and shifts the arguments. -/
theorem IntegralConstantTuple.Create_shift {T : Type} [DecidableEq T] (unused : T)
    (u1 u2 u3 u4 u5 u6 u7 u8 u9 : T) (Seed : List (integral_constant T)) (h1 : u1 ≠ unused) :
    IntegralConstantTuple.Create unused u1 u2 u3 u4 u5 u6 u7 u8 u9 Seed =
      IntegralConstantTuple.Create unused u2 u3 u4 u5 u6 u7 u8 u9 unused (Seed ++ [⟨u1⟩]) := by
  conv_lhs => rw [IntegralConstantTuple.Create]
  simp [h1, PushBackTuple]

/-- The variadic definition lists the values in the order given. -/
theorem IntegralConstantTuple.variadic_eq_map {T : Type} (v : T) (ws : List T) :
    IntegralConstantTuple.variadic v ws = (v :: ws).map integral_constant.mk := by
  induction ws generalizing v with
  | nil => rfl
  | cons w ws ih => simp [IntegralConstantTuple.variadic, PushFrontTuple, ih]

/-- C14: the two definitions of `IntegralConstantTuple` agree.  For values
`v, ws...`, `k` in all with `1 <= k <= 9`, none of them equal to the sentinel
`unused`, the fallback definition (`Create` with `PushBackTuple`, ended by the
all-unused specialisation, the arguments not given being `unused`) yields the
same tuple as the variadic definition (the `PushFrontTuple` recursion), and
that tuple is the `k` integral constants of the values in the order given. -/
theorem IntegralConstantTuple_fallback_eq_variadic {T : Type} [DecidableEq T] (unused v : T)
    (ws : List T) (hk : ws.length ≤ 8) (hv : v ≠ unused) (hws : ∀ w ∈ ws, w ≠ unused) :
    IntegralConstantTuple.fallbackOf unused v ws = IntegralConstantTuple.variadic v ws ∧
    IntegralConstantTuple.variadic v ws = (v :: ws).map integral_constant.mk := by
  refine ⟨?_, IntegralConstantTuple.variadic_eq_map v ws⟩
  rw [IntegralConstantTuple.variadic_eq_map]
  rcases ws with _ | ⟨w1, _ | ⟨w2, _ | ⟨w3, _ | ⟨w4, _ | ⟨w5, _ | ⟨w6, _ | ⟨w7, _ | ⟨w8, _ | ⟨w9, ws⟩⟩⟩⟩⟩⟩⟩⟩⟩
  all_goals first
    | (simp only [List.length_cons] at hk; omega)
    | (simp only [List.mem_cons, List.mem_singleton, List.not_mem_nil, or_false, forall_eq_or_imp,
        forall_eq, false_or, or_self, forall_const, false_implies, implies_true] at hws
       simp [IntegralConstantTuple.fallbackOf, IntegralConstantTuple.fallback,
        IntegralConstantTuple.Create_shift, IntegralConstantTuple.Create_unused, hv, hws])

/-- C14, at concrete inputs: the values 1, 2, 3 of type `int`, with the
sentinel `INT_MIN` of a 32-bit `int`. -/
theorem IntegralConstantTuple_fallback_eq_variadic_witness :
    IntegralConstantTuple.fallbackOf (-2147483648 : Int) 1 [2, 3] =
      IntegralConstantTuple.variadic 1 [2, 3] ∧
    IntegralConstantTuple.variadic (1 : Int) [2, 3] = [⟨1⟩, ⟨2⟩, ⟨3⟩] :=
  IntegralConstantTuple_fallback_eq_variadic (-2147483648 : Int) 1 [2, 3] (by decide)
    (by decide) (by decide)

end Dune
